import Mathlib

/-!
# Glyph distance kernels and batch evaluator (prpr2cy/legado, `app/src/main/cpp`)

Shallow embedding of

* `common.cpp`            : `calculate_diff_fallback`
* `x86/sse_math.cpp`      : `calculate_diff_sse`
* `x86_64/avx_math.cpp`   : `calculate_diff_avx2`
* `arm/neon_math.cpp`     : `calculate_diff_neon` (32-bit arm)
* `arm64/neon_math.cpp`   : `calculate_diff_neon` (aarch64)
* `native-lib.cpp`        : `calculateDifferencesBatch`

Conventions of the embedding.

* A machine integer is an `Int`; every operation that can leave the range of its C type is
  followed by an explicit two's-complement wrap (`wrap32`, `wrap64`).
* A pointer is a buffer together with an element offset.  A load outside the buffer is
  undefined behaviour in C; here it yields `none`, and `none` propagates to the result.
* A `for` loop is run by `forLoop` with an iteration budget; every kernel passes a budget that
  is larger than the number of iterations of its loop, so the budget is never exhausted.
-/

namespace Glyph

/-! ## Machine integers -/

/-- Two's-complement reduction to the range of `int32_t`. -/
def wrap32 (x : Int) : Int := (x + 2 ^ 31) % 2 ^ 32 - 2 ^ 31

/-- Two's-complement reduction to the range of `int64_t`. -/
def wrap64 (x : Int) : Int := (x + 2 ^ 63) % 2 ^ 64 - 2 ^ 63

/-- The constant `INT64_MAX` of `<cstdint>`. -/
def INT64_MAX : Int := 2 ^ 63 - 1

/-- Membership in the range of `int32_t`. -/
def isInt32 (x : Int) : Prop := -2 ^ 31 ≤ x ∧ x < 2 ^ 31

instance (x : Int) : Decidable (isInt32 x) := by unfold isInt32; infer_instance

/-! ## Pointers and loads -/

/-- A `const int32_t*`: the array it points into and the element offset within it. -/
structure Ptr where
  buf : List Int
  off : Int

/-- Pointer to the first element of an array (what `GetIntArrayElements` hands out). -/
def Ptr.ofList (l : List Int) : Ptr := ⟨l, 0⟩

/-- Pointer arithmetic `p + k`. -/
def Ptr.add (p : Ptr) (k : Int) : Ptr := ⟨p.buf, p.off + k⟩

/-- The read `p[j]`; `none` when the element lies outside the array. -/
def Ptr.load (p : Ptr) (j : Nat) : Option Int :=
  if 0 ≤ p.off + (j : Int) then p.buf[(p.off + (j : Int)).toNat]? else none

/-! ## The `for` loop -/

/-- Runs `for (int i = i0; i < count; i += step) s = body(i, s);` and returns the final `s`.
The first argument after `body` is the iteration budget. -/
def forLoop {σ : Type} (count : Int) (step : Nat) (body : Nat → σ → Option σ) :
    Nat → Nat → σ → Option σ
  | 0, _, _ => none
  | fuel + 1, i, s =>
    if (i : Int) < count then
      match body i s with
      | none => none
      | some s' => forLoop count step body fuel (i + step) s'
    else some s

/-! ## `common.cpp` : the scalar kernel -/

/-- Body of the loop of `calculate_diff_fallback` (`common.cpp` lines 6-8). -/
def calculate_diff_fallback.body (a b : Ptr) (i : Nat) (total : Int) : Option Int := do
  let a0 ← a.load (2 * i)
  let b0 ← b.load (2 * i)
  let dx := wrap32 (a0 - b0)
  let a1 ← a.load (2 * i + 1)
  let b1 ← b.load (2 * i + 1)
  let dy := wrap32 (a1 - b1)
  pure (wrap64 (total + wrap64 (dx * dx + dy * dy)))

/-- The function `calculate_diff_fallback` of `common.cpp` (lines 3-11). -/
def calculate_diff_fallback (a b : Ptr) (count : Int) : Option Int :=
  forLoop count 1 (calculate_diff_fallback.body a b) (count.toNat + 1) 0 0

/-! ## Vector registers and intrinsics -/

/-- Four 32-bit lanes (`__m128i` seen as epi32, `int32x4_t`). -/
structure I32x4 where
  e0 : Int
  e1 : Int
  e2 : Int
  e3 : Int
  deriving DecidableEq, Repr

/-- Two 64-bit lanes (`__m128i` seen as epi64, `int64x2_t`). -/
structure I64x2 where
  q0 : Int
  q1 : Int
  deriving DecidableEq, Repr

/-- Eight 32-bit lanes (`__m256i` seen as epi32). -/
structure I32x8 where
  e0 : Int
  e1 : Int
  e2 : Int
  e3 : Int
  e4 : Int
  e5 : Int
  e6 : Int
  e7 : Int
  deriving DecidableEq, Repr

/-- Four 64-bit lanes (`__m256i` seen as epi64). -/
structure I64x4 where
  q0 : Int
  q1 : Int
  q2 : Int
  q3 : Int
  deriving DecidableEq, Repr

/-- Two 32-bit lanes (`int32x2_t`). -/
structure I32x2 where
  e0 : Int
  e1 : Int
  deriving DecidableEq, Repr

/-- Lane selection in a 128-bit register by a 2-bit index. -/
def I32x4.lane (v : I32x4) (k : Nat) : Int :=
  match k % 4 with
  | 0 => v.e0
  | 1 => v.e1
  | 2 => v.e2
  | _ => v.e3

/-- The macro `_MM_SHUFFLE(z, y, x, w)` of `<xmmintrin.h>`. -/
def _MM_SHUFFLE (z y x w : Nat) : Nat := (z <<< 6) ||| (y <<< 4) ||| (x <<< 2) ||| w

/-- The zero register `_mm_setzero_si128()`. -/
def _mm_setzero_si128 : I64x2 := ⟨0, 0⟩

/-- Unaligned 128-bit load `_mm_loadu_si128(p + k)`: four consecutive elements. -/
def _mm_loadu_si128 (p : Ptr) (k : Nat) : Option I32x4 := do
  let e0 ← p.load k
  let e1 ← p.load (k + 1)
  let e2 ← p.load (k + 2)
  let e3 ← p.load (k + 3)
  pure ⟨e0, e1, e2, e3⟩

/-- Lanewise wrapping 32-bit subtraction `_mm_sub_epi32`. -/
def _mm_sub_epi32 (x y : I32x4) : I32x4 :=
  ⟨wrap32 (x.e0 - y.e0), wrap32 (x.e1 - y.e1), wrap32 (x.e2 - y.e2), wrap32 (x.e3 - y.e3)⟩

/-- The shuffle `_mm_shuffle_epi32(v, imm)`: result lane `j` is source lane
`(imm >> 2j) & 3`. -/
def _mm_shuffle_epi32 (v : I32x4) (imm : Nat) : I32x4 :=
  ⟨v.lane (imm >>> 0), v.lane (imm >>> 2), v.lane (imm >>> 4), v.lane (imm >>> 6)⟩

/-- The widening multiply `_mm_mul_epi32`: the signed low 32 bits of each 64-bit lane
(32-bit lanes 0 and 2) are multiplied into a 64-bit product. -/
def _mm_mul_epi32 (x y : I32x4) : I64x2 :=
  ⟨wrap64 (x.e0 * y.e0), wrap64 (x.e2 * y.e2)⟩

/-- Lanewise wrapping 64-bit addition `_mm_add_epi64`. -/
def _mm_add_epi64 (x y : I64x2) : I64x2 :=
  ⟨wrap64 (x.q0 + y.q0), wrap64 (x.q1 + y.q1)⟩

/-- The zero register `_mm256_setzero_si256()`. -/
def _mm256_setzero_si256 : I64x4 := ⟨0, 0, 0, 0⟩

/-- Unaligned 256-bit load `_mm256_loadu_si256(p + k)`: eight consecutive elements. -/
def _mm256_loadu_si256 (p : Ptr) (k : Nat) : Option I32x8 := do
  let e0 ← p.load k
  let e1 ← p.load (k + 1)
  let e2 ← p.load (k + 2)
  let e3 ← p.load (k + 3)
  let e4 ← p.load (k + 4)
  let e5 ← p.load (k + 5)
  let e6 ← p.load (k + 6)
  let e7 ← p.load (k + 7)
  pure ⟨e0, e1, e2, e3, e4, e5, e6, e7⟩

/-- Lanewise wrapping 32-bit subtraction `_mm256_sub_epi32`. -/
def _mm256_sub_epi32 (x y : I32x8) : I32x8 :=
  ⟨wrap32 (x.e0 - y.e0), wrap32 (x.e1 - y.e1), wrap32 (x.e2 - y.e2), wrap32 (x.e3 - y.e3),
   wrap32 (x.e4 - y.e4), wrap32 (x.e5 - y.e5), wrap32 (x.e6 - y.e6), wrap32 (x.e7 - y.e7)⟩

/-- Low 128-bit half of a 256-bit register. -/
def I32x8.lo (v : I32x8) : I32x4 := ⟨v.e0, v.e1, v.e2, v.e3⟩

/-- High 128-bit half of a 256-bit register. -/
def I32x8.hi (v : I32x8) : I32x4 := ⟨v.e4, v.e5, v.e6, v.e7⟩

/-- The shuffle `_mm256_shuffle_epi32(v, imm)`: the 128-bit shuffle applied to each 128-bit
half separately with the same control. -/
def _mm256_shuffle_epi32 (v : I32x8) (imm : Nat) : I32x8 :=
  let l := _mm_shuffle_epi32 v.lo imm
  let h := _mm_shuffle_epi32 v.hi imm
  ⟨l.e0, l.e1, l.e2, l.e3, h.e0, h.e1, h.e2, h.e3⟩

/-- The widening multiply `_mm256_mul_epi32`: 32-bit lanes 0, 2, 4, 6 are multiplied into
64-bit products. -/
def _mm256_mul_epi32 (x y : I32x8) : I64x4 :=
  ⟨wrap64 (x.e0 * y.e0), wrap64 (x.e2 * y.e2), wrap64 (x.e4 * y.e4), wrap64 (x.e6 * y.e6)⟩

/-- Lanewise wrapping 64-bit addition `_mm256_add_epi64`. -/
def _mm256_add_epi64 (x y : I64x4) : I64x4 :=
  ⟨wrap64 (x.q0 + y.q0), wrap64 (x.q1 + y.q1), wrap64 (x.q2 + y.q2), wrap64 (x.q3 + y.q3)⟩

/-- The broadcast `vdupq_n_s64(c)`. -/
def vdupq_n_s64 (c : Int) : I64x2 := ⟨c, c⟩

/-- The de-interleaving load `vld2q_s32(p + k)`: eight consecutive elements, the even ones
into `val[0]` and the odd ones into `val[1]`. -/
def vld2q_s32 (p : Ptr) (k : Nat) : Option (I32x4 × I32x4) := do
  let e0 ← p.load k
  let e1 ← p.load (k + 1)
  let e2 ← p.load (k + 2)
  let e3 ← p.load (k + 3)
  let e4 ← p.load (k + 4)
  let e5 ← p.load (k + 5)
  let e6 ← p.load (k + 6)
  let e7 ← p.load (k + 7)
  pure (⟨e0, e2, e4, e6⟩, ⟨e1, e3, e5, e7⟩)

/-- Lanewise wrapping 32-bit subtraction `vsubq_s32`. -/
def vsubq_s32 (x y : I32x4) : I32x4 :=
  ⟨wrap32 (x.e0 - y.e0), wrap32 (x.e1 - y.e1), wrap32 (x.e2 - y.e2), wrap32 (x.e3 - y.e3)⟩

/-- The low half `vget_low_s32(v)`: lanes 0 and 1. -/
def vget_low_s32 (v : I32x4) : I32x2 := ⟨v.e0, v.e1⟩

/-- Widening multiply `vmull_s32`. -/
def vmull_s32 (x y : I32x2) : I64x2 := ⟨wrap64 (x.e0 * y.e0), wrap64 (x.e1 * y.e1)⟩

/-- Widening multiply-accumulate `vmlal_s32(acc, x, y)`. -/
def vmlal_s32 (acc : I64x2) (x y : I32x2) : I64x2 :=
  ⟨wrap64 (acc.q0 + x.e0 * y.e0), wrap64 (acc.q1 + x.e1 * y.e1)⟩

/-- Lanewise wrapping 64-bit addition `vaddq_s64`. -/
def vaddq_s64 (x y : I64x2) : I64x2 :=
  ⟨wrap64 (x.q0 + y.q0), wrap64 (x.q1 + y.q1)⟩

/-- Lane extraction `vgetq_lane_s64(v, k)`. -/
def vgetq_lane_s64 (v : I64x2) (k : Nat) : Int :=
  match k with
  | 0 => v.q0
  | _ => v.q1

/-- Across-vector add `vaddvq_s64`. -/
def vaddvq_s64 (v : I64x2) : Int := wrap64 (v.q0 + v.q1)

/-! ## `x86/sse_math.cpp` -/

/-- Body of the loop of `calculate_diff_sse` (`x86/sse_math.cpp` lines 13-22). -/
def calculate_diff_sse.body (a b : Ptr) (i : Nat) (total : I64x2) : Option I64x2 := do
  let va ← _mm_loadu_si128 a (i * 2)
  let vb ← _mm_loadu_si128 b (i * 2)
  let dxdy := _mm_sub_epi32 va vb
  let dx := _mm_shuffle_epi32 dxdy (_MM_SHUFFLE 2 0 2 0)
  let dy := _mm_shuffle_epi32 dxdy (_MM_SHUFFLE 3 1 3 1)
  let dx_sq := _mm_mul_epi32 dx dx
  let dy_sq := _mm_mul_epi32 dy dy
  pure (_mm_add_epi64 total (_mm_add_epi64 dx_sq dy_sq))

/-- The function `calculate_diff_sse` of `x86/sse_math.cpp` (lines 9-28). -/
def calculate_diff_sse (a b : Ptr) (count : Int) : Option Int :=
  (forLoop count 4 (calculate_diff_sse.body a b) (count.toNat + 1) 0 _mm_setzero_si128).map
    fun total => wrap64 (total.q0 + total.q1)

/-! ## `x86_64/avx_math.cpp` -/

/-- Body of the loop of `calculate_diff_avx2` (`x86_64/avx_math.cpp` lines 13-22). -/
def calculate_diff_avx2.body (a b : Ptr) (i : Nat) (total : I64x4) : Option I64x4 := do
  let va ← _mm256_loadu_si256 a (i * 2)
  let vb ← _mm256_loadu_si256 b (i * 2)
  let dxdy := _mm256_sub_epi32 va vb
  let dx := _mm256_shuffle_epi32 dxdy (_MM_SHUFFLE 2 0 2 0)
  let dy := _mm256_shuffle_epi32 dxdy (_MM_SHUFFLE 3 1 3 1)
  let dx_sq := _mm256_mul_epi32 dx dx
  let dy_sq := _mm256_mul_epi32 dy dy
  pure (_mm256_add_epi64 total (_mm256_add_epi64 dx_sq dy_sq))

/-- The function `calculate_diff_avx2` of `x86_64/avx_math.cpp` (lines 9-28). -/
def calculate_diff_avx2 (a b : Ptr) (count : Int) : Option Int :=
  (forLoop count 8 (calculate_diff_avx2.body a b) (count.toNat + 1) 0 _mm256_setzero_si256).map
    fun total => wrap64 (wrap64 (wrap64 (total.q0 + total.q1) + total.q2) + total.q3)

/-! ## `arm/neon_math.cpp` and `arm64/neon_math.cpp` -/

/-- Body of the loop of the 32-bit arm `calculate_diff_neon` (`arm/neon_math.cpp`
lines 13-21). -/
def arm.calculate_diff_neon.body (a b : Ptr) (i : Nat) (total : I64x2) : Option I64x2 := do
  let va ← vld2q_s32 a (i * 2)
  let vb ← vld2q_s32 b (i * 2)
  let dx := vsubq_s32 va.1 vb.1
  let dy := vsubq_s32 va.2 vb.2
  let dx_sq := vmull_s32 (vget_low_s32 dx) (vget_low_s32 dx)
  let dy_sq := vmull_s32 (vget_low_s32 dy) (vget_low_s32 dy)
  pure (vaddq_s64 total (vaddq_s64 dx_sq dy_sq))

/-- The function `calculate_diff_neon` of `arm/neon_math.cpp` (lines 9-25). -/
def arm.calculate_diff_neon (a b : Ptr) (count : Int) : Option Int :=
  (forLoop count 4 (arm.calculate_diff_neon.body a b) (count.toNat + 1) 0 (vdupq_n_s64 0)).map
    fun total => wrap64 (vgetq_lane_s64 total 0 + vgetq_lane_s64 total 1)

/-- Body of the loop of the aarch64 `calculate_diff_neon` (`arm64/neon_math.cpp`
lines 13-20). -/
def arm64.calculate_diff_neon.body (a b : Ptr) (i : Nat) (total : I64x2) : Option I64x2 := do
  let va ← vld2q_s32 a (i * 2)
  let vb ← vld2q_s32 b (i * 2)
  let dx := vsubq_s32 va.1 vb.1
  let dy := vsubq_s32 va.2 vb.2
  let total := vmlal_s32 total (vget_low_s32 dx) (vget_low_s32 dx)
  let total := vmlal_s32 total (vget_low_s32 dy) (vget_low_s32 dy)
  pure total

/-- The function `calculate_diff_neon` of `arm64/neon_math.cpp` (lines 9-24). -/
def arm64.calculate_diff_neon (a b : Ptr) (count : Int) : Option Int :=
  (forLoop count 4 (arm64.calculate_diff_neon.body a b) (count.toNat + 1) 0
    (vdupq_n_s64 0)).map vaddvq_s64

/-! ## `math_interface.h` and `native-lib.cpp` -/

/-- The type `DiffCalculator` of `math_interface.h`. -/
abbrev DiffCalculator : Type := Ptr → Ptr → Int → Option Int

/-- The kernel realizations that `get_optimized_calculator` can hand out. -/
inductive Kernel where
  | fallback
  | sse
  | avx2
  | neon_arm
  | neon_arm64
  deriving DecidableEq, Repr

/-- The function a kernel tag stands for. -/
def Kernel.fn : Kernel → DiffCalculator
  | .fallback => calculate_diff_fallback
  | .sse => calculate_diff_sse
  | .avx2 => calculate_diff_avx2
  | .neon_arm => arm.calculate_diff_neon
  | .neon_arm64 => arm64.calculate_diff_neon

/-- One iteration of the candidate loop of `calculateDifferencesBatch` (`native-lib.cpp`
lines 29-42): the value stored into `results[i]`. -/
def calculateDifferencesBatch.body (calculator : DiffCalculator)
    (inputArr allCandidateArr offsets : List Int) (i : Nat) : Option Int := do
  let input := Ptr.ofList inputArr
  let candidates := Ptr.ofList allCandidateArr
  let offsetData := Ptr.ofList offsets
  let inputLen : Int := inputArr.length
  let start ← offsetData.load (i * 2)
  let length ← offsetData.load (i * 2 + 1)
  if length ≠ inputLen then
    pure INT64_MAX
  else
    calculator input (candidates.add start) (Int.tdiv length 2)

/-- The function `Java_io_legado_app_model_analyzeRule_GlyphNative_calculateDifferencesBatch`
of `native-lib.cpp` (lines 6-53), with the selected kernel as a parameter.  Entry `i` of the
result is the content of `results[i]`, `none` when computing it ran into undefined
behaviour. -/
def calculateDifferencesBatch (calculator : DiffCalculator)
    (inputArr allCandidateArr offsets allCandidateMxy : List Int) : List (Option Int) :=
  let _mxyData := Ptr.ofList allCandidateMxy
  let numCandidates := offsets.length / 2
  (List.range numCandidates).map
    (calculateDifferencesBatch.body calculator inputArr allCandidateArr offsets)

/-! ## `common.cpp` : the dispatcher -/

/-- The predefined macros tested by `get_optimized_calculator` (`true` = defined):
`__AVX2__`, `__SSE3__`, `__ARM_NEON`, `__aarch64__` and `__ARM_NEON__`. -/
structure BuildFlags where
  AVX2 : Bool
  SSE3 : Bool
  ARM_NEON : Bool
  aarch64 : Bool
  ARM_NEON__ : Bool
  deriving DecidableEq, Repr

/-- The function `get_optimized_calculator` of `common.cpp` (lines 13-25).  The symbol
`calculate_diff_neon` of the third branch is the one of `arm64/neon_math.cpp` (compiled under
the same condition); in the fourth branch that file is not compiled and the symbol is the one
of `arm/neon_math.cpp`. -/
def get_optimized_calculator (f : BuildFlags) : Kernel :=
  if f.AVX2 then .avx2
  else if f.SSE3 then .sse
  else if f.ARM_NEON && f.aarch64 then .neon_arm64
  else if f.ARM_NEON__ then .neon_arm
  else .fallback

/-! ## `native-lib.cpp` : the candidate loop as stores, and the arrays after the call -/

/-- Iteration `i` of the candidate loop seen as a store into the result array:
`results[i] = ...` (`native-lib.cpp` lines 33 and 42). -/
def calculateDifferencesBatch.store (calculator : DiffCalculator)
    (inputArr allCandidateArr offsets : List Int) (results : List (Option Int)) (i : Nat) :
    List (Option Int) :=
  results.set i (calculateDifferencesBatch.body calculator inputArr allCandidateArr offsets i)

/-- The candidate loop with its iterations executed in the order `order`, starting from the
zero-filled array that `NewLongArray(numCandidates)` delivers. -/
def calculateDifferencesBatch.runOrder (calculator : DiffCalculator)
    (inputArr allCandidateArr offsets : List Int) (order : List Nat) : List (Option Int) :=
  order.foldl (calculateDifferencesBatch.store calculator inputArr allCandidateArr offsets)
    (List.replicate (offsets.length / 2) (some 0))

/-- The release mode `JNI_ABORT` of `<jni.h>`. -/
def JNI_ABORT : Nat := 2

/-- The call `ReleaseIntArrayElements(array, elems, mode)`: the content of the Java array
afterwards.  With `JNI_ABORT` the native elements are discarded, otherwise they are copied
back. -/
def ReleaseIntArrayElements (array elems : List Int) (mode : Nat) : List Int :=
  if mode = JNI_ABORT then array else elems

/-- What a call of `calculateDifferencesBatch` leaves behind: the returned array and the
content of the four argument arrays. -/
structure BatchOutcome where
  resultArray : List (Option Int)
  inputArr : List Int
  allCandidateArr : List Int
  offsets : List Int
  allCandidateMxy : List Int

/-- The whole call of `calculateDifferencesBatch` (`native-lib.cpp` lines 14-52): the four
element buffers are obtained, the loop fills the result array and never stores into the
buffers, and the buffers are released with `JNI_ABORT`. -/
def calculateDifferencesBatch.call (calculator : DiffCalculator)
    (inputArr allCandidateArr offsets allCandidateMxy : List Int) : BatchOutcome :=
  let input := inputArr
  let candidates := allCandidateArr
  let offsetData := offsets
  let mxyData := allCandidateMxy
  let results := calculateDifferencesBatch.runOrder calculator input candidates offsetData
    (List.range (offsets.length / 2))
  { resultArray := results
    inputArr := ReleaseIntArrayElements inputArr input JNI_ABORT
    allCandidateArr := ReleaseIntArrayElements allCandidateArr candidates JNI_ABORT
    offsets := ReleaseIntArrayElements offsets offsetData JNI_ABORT
    allCandidateMxy := ReleaseIntArrayElements allCandidateMxy mxyData JNI_ABORT }

/-! ## Reference quantities used in the statements -/

/-- The sum `f 0 + f 1 + ... + f (n - 1)`. -/
def sumTo (f : Nat → Int) : Nat → Int
  | 0 => 0
  | n + 1 => sumTo f n + f n

/-- Element `j` of a buffer (0 outside the buffer). -/
def elem (A : List Int) (j : Nat) : Int := A.getD j 0

/-- The exact squared distance of point `i`:
`(A[2i]-B[2i])^2 + (A[2i+1]-B[2i+1])^2` over the integers. -/
def exactTerm (A B : List Int) (i : Nat) : Int :=
  (elem A (2 * i) - elem B (2 * i)) ^ 2 + (elem A (2 * i + 1) - elem B (2 * i + 1)) ^ 2

/-- The exact integer sum over `i < n` of `(A[2i]-B[2i])^2 + (A[2i+1]-B[2i+1])^2`. -/
def exactSum (A B : List Int) (n : Nat) : Int := sumTo (exactTerm A B) n

/-- The coordinate difference `A[j] - B[j]` as the 32-bit subtraction delivers it. -/
def delta32 (A B : List Int) (j : Nat) : Int := wrap32 (elem A j - elem B j)

/-- The squared distance of point `i` computed from the 32-bit coordinate differences. -/
def machineTerm (A B : List Int) (i : Nat) : Int :=
  delta32 A B (2 * i) * delta32 A B (2 * i) + delta32 A B (2 * i + 1) * delta32 A B (2 * i + 1)

/-- The integer sum over `i < n` of the squared 32-bit coordinate differences. -/
def machineSum (A B : List Int) (n : Nat) : Int := sumTo (machineTerm A B) n

/-- What one iteration of `calculate_diff_sse` adds for batch `k`: twice the squared 32-bit
differences of elements `8k` and `8k+1`. -/
def sseTerm (A B : List Int) (k : Nat) : Int :=
  2 * (delta32 A B (8 * k) * delta32 A B (8 * k)
    + delta32 A B (8 * k + 1) * delta32 A B (8 * k + 1))

/-- What one iteration of `calculate_diff_avx2` adds for batch `k`: twice the squared 32-bit
differences of elements `16k`, `16k+1` and of elements `16k+4`, `16k+5`. -/
def avx2Term (A B : List Int) (k : Nat) : Int :=
  2 * (delta32 A B (16 * k) * delta32 A B (16 * k)
    + delta32 A B (16 * k + 1) * delta32 A B (16 * k + 1))
  + 2 * (delta32 A B (16 * k + 4) * delta32 A B (16 * k + 4)
    + delta32 A B (16 * k + 5) * delta32 A B (16 * k + 5))

/-- What one iteration of `calculate_diff_neon` adds for batch `k`: the squared 32-bit
differences of elements `8k`, `8k+1`, `8k+2`, `8k+3`. -/
def neonTerm (A B : List Int) (k : Nat) : Int :=
  delta32 A B (8 * k) * delta32 A B (8 * k)
  + delta32 A B (8 * k + 1) * delta32 A B (8 * k + 1)
  + delta32 A B (8 * k + 2) * delta32 A B (8 * k + 2)
  + delta32 A B (8 * k + 3) * delta32 A B (8 * k + 3)

/-- The candidate slice `pool[start : start + length]`. -/
def slice (pool : List Int) (start length : Int) : List Int :=
  (pool.drop start.toNat).take length.toNat

/-- Number of iterations of `for (i = 0; i < count; i += step)`. -/
def tripCount (count : Int) (step : Nat) : Nat := (count.toNat + (step - 1)) / step

/-- Runs `body` exactly `m` times, at `i`, `i + step`, `i + 2 * step`, ... -/
def iterN {σ : Type} (step : Nat) (body : Nat → σ → Option σ) : Nat → Nat → σ → Option σ
  | 0, _, s => some s
  | m + 1, i, s =>
    match body i s with
    | none => none
    | some s' => iterN step body m (i + step) s'

/-- The buffers `b` and `c` hold the same element wherever `a` holds one. -/
def AgreeWhereDefined (a b c : Ptr) : Prop :=
  ∀ j : Nat, a.load j ≠ none → b.load j = c.load j

/-! ## Arithmetic of the wraps -/

theorem wrap64_of_range {x : Int} (h1 : -2 ^ 63 ≤ x) (h2 : x < 2 ^ 63) : wrap64 x = x := by
  unfold wrap64
  rw [Int.emod_eq_of_lt (by omega) (by omega)]
  omega

theorem wrap32_of_range {x : Int} (h1 : -2 ^ 31 ≤ x) (h2 : x < 2 ^ 31) : wrap32 x = x := by
  unfold wrap32
  rw [Int.emod_eq_of_lt (by omega) (by omega)]
  omega

theorem wrap32_bounds (x : Int) : -2 ^ 31 ≤ wrap32 x ∧ wrap32 x < 2 ^ 31 := by
  unfold wrap32
  constructor <;> omega

theorem wrap64_bounds (x : Int) : -2 ^ 63 ≤ wrap64 x ∧ wrap64 x < 2 ^ 63 := by
  unfold wrap64
  constructor <;> omega

theorem wrap64_add_left (x y : Int) : wrap64 (wrap64 x + y) = wrap64 (x + y) := by
  unfold wrap64
  omega

theorem wrap64_add_right (x y : Int) : wrap64 (x + wrap64 y) = wrap64 (x + y) := by
  unfold wrap64
  omega

theorem wrap64_wrap64 (x : Int) : wrap64 (wrap64 x) = wrap64 x := by
  unfold wrap64
  omega

/-! ## The loop -/

theorem forLoop_eq_iterN {σ : Type} (count : Int) (step : Nat) (body : Nat → σ → Option σ) :
    ∀ (m fuel i : Nat) (s : σ), m < fuel → count - (i : Int) ≤ (m : Int) * step →
      (∀ k : Nat, k < m → ((i + k * step : Nat) : Int) < count) →
      forLoop count step body fuel i s = iterN step body m i s := by
  intro m
  induction m with
  | zero =>
    intro fuel i s hf hc _
    obtain ⟨f, rfl⟩ : ∃ f, fuel = f + 1 := ⟨fuel - 1, by omega⟩
    have : ¬ ((i : Int) < count) := by simp at hc; omega
    simp [forLoop, iterN, this]
  | succ m ih =>
    intro fuel i s hf hc hk
    obtain ⟨f, rfl⟩ : ∃ f, fuel = f + 1 := ⟨fuel - 1, by omega⟩
    have h0 : (i : Int) < count := by simpa using hk 0 (by omega)
    simp only [forLoop, iterN, h0, if_true]
    cases body i s with
    | none => rfl
    | some s' =>
      simp only
      apply ih
      · omega
      · push_cast at hc ⊢
        linarith
      · intro k hkm
        have := hk (k + 1) (by omega)
        have e : i + step + k * step = i + (k + 1) * step := by ring
        rw [e]
        exact this

theorem forLoop_kernel {σ : Type} (n step : Nat) (hstep : 0 < step)
    (body : Nat → σ → Option σ) (s : σ) :
    forLoop (n : Int) step body ((n : Int).toNat + 1) 0 s
      = iterN step body (tripCount n step) 0 s := by
  have hdiv : tripCount (n : Int) step = (n + (step - 1)) / step := by simp [tripCount]
  have hle : (n + (step - 1)) / step ≤ n := by
    rcases Nat.eq_zero_or_pos n with h0 | hpos
    · subst h0
      rw [Nat.zero_add, Nat.div_eq_of_lt (by omega)]
    · apply Nat.div_le_of_le_mul
      obtain ⟨k, rfl⟩ : ∃ k, n = k + 1 := ⟨n - 1, by omega⟩
      have h2 : 1 * k ≤ step * k := Nat.mul_le_mul_right k hstep
      rw [Nat.mul_add, Nat.mul_one]
      omega
  apply forLoop_eq_iterN
  · rw [hdiv]; simp; omega
  · rw [hdiv]
    have : n ≤ (n + (step - 1)) / step * step := by
      have h1 := Nat.div_add_mod (n + (step - 1)) step
      have h2 := Nat.mod_lt (n + (step - 1)) hstep
      rw [Nat.mul_comm] at h1
      omega
    push_cast
    have : (n : Int) ≤ (((n + (step - 1)) / step * step : Nat) : Int) := by exact_mod_cast this
    push_cast at this
    linarith
  · intro k hk
    rw [hdiv] at hk
    have h1 : (k + 1) * step ≤ n + (step - 1) := by
      have := Nat.div_mul_le_self (n + (step - 1)) step
      have h3 : (k + 1) * step ≤ (n + (step - 1)) / step * step :=
        Nat.mul_le_mul_right step hk
      omega
    have : 0 + k * step < n := by
      have : (k + 1) * step = k * step + step := by ring
      omega
    exact_mod_cast this

/-! ## Loads from whole arrays -/

theorem load_ofList (A : List Int) (j : Nat) : (Ptr.ofList A).load j = A[j]? := by
  simp [Ptr.load, Ptr.ofList]

theorem load_ofList_of_lt (A : List Int) (j : Nat) (h : j < A.length) :
    (Ptr.ofList A).load j = some (elem A j) := by
  rw [load_ofList]
  simp [elem, List.getD, List.getElem?_eq_getElem h]

theorem load_ofList_of_le (A : List Int) (j : Nat) (h : A.length ≤ j) :
    (Ptr.ofList A).load j = none := by
  rw [load_ofList]
  simp [h]

/-! ## Sums -/

theorem sumTo_succ_front (f : Nat → Int) (m : Nat) :
    sumTo f (m + 1) = f 0 + sumTo (fun k => f (k + 1)) m := by
  induction m with
  | zero => simp [sumTo]
  | succ m ih =>
    rw [sumTo, ih]
    simp only [sumTo]
    ring

theorem sumTo_congr (f g : Nat → Int) (n : Nat) (h : ∀ k, k < n → f k = g k) :
    sumTo f n = sumTo g n := by
  induction n with
  | zero => rfl
  | succ n ih =>
    simp only [sumTo]
    rw [ih (fun k hk => h k (by omega)), h n (by omega)]

theorem sumTo_nonneg (f : Nat → Int) (n : Nat) (h : ∀ k, k < n → 0 ≤ f k) :
    0 ≤ sumTo f n := by
  induction n with
  | zero => simp [sumTo]
  | succ n ih =>
    simp only [sumTo]
    have := ih (fun k hk => h k (by omega))
    have := h n (by omega)
    omega

theorem machineTerm_nonneg (A B : List Int) (i : Nat) : 0 ≤ machineTerm A B i := by
  unfold machineTerm
  nlinarith [mul_self_nonneg (delta32 A B (2 * i)), mul_self_nonneg (delta32 A B (2 * i + 1))]

theorem machineSum_nonneg (A B : List Int) (n : Nat) : 0 ≤ machineSum A B n :=
  sumTo_nonneg _ _ (fun k _ => machineTerm_nonneg A B k)

/-! ## Closed form of the scalar kernel -/

theorem fallback_body_eq (A B : List Int) (i : Nat) (t : Int)
    (hA : 2 * i + 1 < A.length) (hB : 2 * i + 1 < B.length) :
    calculate_diff_fallback.body (Ptr.ofList A) (Ptr.ofList B) i (wrap64 t)
      = some (wrap64 (t + machineTerm A B i)) := by
  unfold calculate_diff_fallback.body
  rw [load_ofList_of_lt A (2 * i) (by omega), load_ofList_of_lt B (2 * i) (by omega),
    load_ofList_of_lt A (2 * i + 1) hA, load_ofList_of_lt B (2 * i + 1) hB]
  simp only [Option.bind_eq_bind, Option.some_bind, Option.pure_def]
  rw [wrap64_add_left, wrap64_add_right]
  rfl

theorem fallback_iter (A B : List Int) :
    ∀ (m i : Nat) (t : Int), 2 * (i + m) ≤ A.length → 2 * (i + m) ≤ B.length →
      iterN 1 (calculate_diff_fallback.body (Ptr.ofList A) (Ptr.ofList B)) m i (wrap64 t)
        = some (wrap64 (t + sumTo (fun k => machineTerm A B (i + k)) m)) := by
  intro m
  induction m with
  | zero =>
    intro i t _ _
    simp [iterN, sumTo]
  | succ m ih =>
    intro i t hA hB
    rw [iterN, fallback_body_eq A B i t (by omega) (by omega)]
    simp only
    rw [ih (i + 1) _ (by omega) (by omega), sumTo_succ_front]
    congr 2
    have : (fun k => machineTerm A B (i + 1 + k)) = fun k => machineTerm A B (i + (k + 1)) := by
      funext k
      congr 1
      omega
    rw [this]
    simp only [Nat.add_zero]
    ring

theorem tripCount_one (n : Nat) : tripCount (n : Int) 1 = n := by
  simp [tripCount]

theorem fallback_closed (A B : List Int) (n : Nat) (hA : 2 * n ≤ A.length)
    (hB : 2 * n ≤ B.length) :
    calculate_diff_fallback (Ptr.ofList A) (Ptr.ofList B) (n : Int)
      = some (wrap64 (machineSum A B n)) := by
  unfold calculate_diff_fallback
  rw [forLoop_kernel n 1 (by omega), tripCount_one]
  have h := fallback_iter A B n 0 0 (by omega) (by omega)
  have e : wrap64 0 = 0 := by decide
  rw [e] at h
  rw [h]
  simp [machineSum]

/-! ## The second buffer matters only where the first one is readable -/

theorem fallback_body_congr (a b c : Ptr) (h : AgreeWhereDefined a b c) (i : Nat) (t : Int) :
    calculate_diff_fallback.body a b i t = calculate_diff_fallback.body a c i t := by
  unfold calculate_diff_fallback.body
  cases h0 : a.load (2 * i) with
  | none => rfl
  | some x0 =>
    rw [h (2 * i) (by simp [h0])]
    cases h1 : a.load (2 * i + 1) with
    | none => cases c.load (2 * i) <;> rfl
    | some x1 => rw [h (2 * i + 1) (by simp [h1])]

theorem loadu128_defined (a : Ptr) (k : Nat) (v : I32x4) (h : _mm_loadu_si128 a k = some v) :
    ∀ j, j < 4 → a.load (k + j) ≠ none := by
  unfold _mm_loadu_si128 at h
  simp only [Option.bind_eq_bind, Option.bind_eq_some, Option.pure_def] at h
  obtain ⟨x0, h0, x1, h1, x2, h2, x3, h3, _⟩ := h
  intro j hj
  have : j = 0 ∨ j = 1 ∨ j = 2 ∨ j = 3 := by omega
  rcases this with rfl | rfl | rfl | rfl <;> simp [*]

theorem loadu128_congr (b c : Ptr) (k : Nat) (h : ∀ j, j < 4 → b.load (k + j) = c.load (k + j)) :
    _mm_loadu_si128 b k = _mm_loadu_si128 c k := by
  unfold _mm_loadu_si128
  have h0 := h 0 (by omega)
  rw [Nat.add_zero] at h0
  rw [h0, h 1 (by omega), h 2 (by omega), h 3 (by omega)]

theorem loadu256_defined (a : Ptr) (k : Nat) (v : I32x8)
    (h : _mm256_loadu_si256 a k = some v) : ∀ j, j < 8 → a.load (k + j) ≠ none := by
  unfold _mm256_loadu_si256 at h
  simp only [Option.bind_eq_bind, Option.bind_eq_some, Option.pure_def] at h
  obtain ⟨x0, h0, x1, h1, x2, h2, x3, h3, x4, h4, x5, h5, x6, h6, x7, h7, _⟩ := h
  intro j hj
  have : j = 0 ∨ j = 1 ∨ j = 2 ∨ j = 3 ∨ j = 4 ∨ j = 5 ∨ j = 6 ∨ j = 7 := by omega
  rcases this with rfl | rfl | rfl | rfl | rfl | rfl | rfl | rfl <;> simp [*]

theorem loadu256_congr (b c : Ptr) (k : Nat) (h : ∀ j, j < 8 → b.load (k + j) = c.load (k + j)) :
    _mm256_loadu_si256 b k = _mm256_loadu_si256 c k := by
  unfold _mm256_loadu_si256
  have h0 := h 0 (by omega)
  rw [Nat.add_zero] at h0
  rw [h0, h 1 (by omega), h 2 (by omega), h 3 (by omega), h 4 (by omega), h 5 (by omega),
    h 6 (by omega), h 7 (by omega)]

theorem vld2q_defined (a : Ptr) (k : Nat) (v : I32x4 × I32x4) (h : vld2q_s32 a k = some v) :
    ∀ j, j < 8 → a.load (k + j) ≠ none := by
  unfold vld2q_s32 at h
  simp only [Option.bind_eq_bind, Option.bind_eq_some, Option.pure_def] at h
  obtain ⟨x0, h0, x1, h1, x2, h2, x3, h3, x4, h4, x5, h5, x6, h6, x7, h7, _⟩ := h
  intro j hj
  have : j = 0 ∨ j = 1 ∨ j = 2 ∨ j = 3 ∨ j = 4 ∨ j = 5 ∨ j = 6 ∨ j = 7 := by omega
  rcases this with rfl | rfl | rfl | rfl | rfl | rfl | rfl | rfl <;> simp [*]

theorem vld2q_congr (b c : Ptr) (k : Nat) (h : ∀ j, j < 8 → b.load (k + j) = c.load (k + j)) :
    vld2q_s32 b k = vld2q_s32 c k := by
  unfold vld2q_s32
  have h0 := h 0 (by omega)
  rw [Nat.add_zero] at h0
  rw [h0, h 1 (by omega), h 2 (by omega), h 3 (by omega), h 4 (by omega), h 5 (by omega),
    h 6 (by omega), h 7 (by omega)]

theorem sse_body_congr (a b c : Ptr) (h : AgreeWhereDefined a b c) (i : Nat) (t : I64x2) :
    calculate_diff_sse.body a b i t = calculate_diff_sse.body a c i t := by
  unfold calculate_diff_sse.body
  cases hva : _mm_loadu_si128 a (i * 2) with
  | none => rfl
  | some va =>
    rw [loadu128_congr b c (i * 2) (fun j hj => h _ (loadu128_defined a _ va hva j hj))]

theorem avx2_body_congr (a b c : Ptr) (h : AgreeWhereDefined a b c) (i : Nat) (t : I64x4) :
    calculate_diff_avx2.body a b i t = calculate_diff_avx2.body a c i t := by
  unfold calculate_diff_avx2.body
  cases hva : _mm256_loadu_si256 a (i * 2) with
  | none => rfl
  | some va =>
    rw [loadu256_congr b c (i * 2) (fun j hj => h _ (loadu256_defined a _ va hva j hj))]

theorem neon_arm_body_congr (a b c : Ptr) (h : AgreeWhereDefined a b c) (i : Nat) (t : I64x2) :
    arm.calculate_diff_neon.body a b i t = arm.calculate_diff_neon.body a c i t := by
  unfold arm.calculate_diff_neon.body
  cases hva : vld2q_s32 a (i * 2) with
  | none => rfl
  | some va =>
    rw [vld2q_congr b c (i * 2) (fun j hj => h _ (vld2q_defined a _ va hva j hj))]

theorem neon_arm64_body_congr (a b c : Ptr) (h : AgreeWhereDefined a b c) (i : Nat)
    (t : I64x2) :
    arm64.calculate_diff_neon.body a b i t = arm64.calculate_diff_neon.body a c i t := by
  unfold arm64.calculate_diff_neon.body
  cases hva : vld2q_s32 a (i * 2) with
  | none => rfl
  | some va =>
    rw [vld2q_congr b c (i * 2) (fun j hj => h _ (vld2q_defined a _ va hva j hj))]

theorem kernel_congr (K : Kernel) (a b c : Ptr) (n : Int) (h : AgreeWhereDefined a b c) :
    K.fn a b n = K.fn a c n := by
  cases K
  · have e : calculate_diff_fallback.body a b = calculate_diff_fallback.body a c :=
      funext fun i => funext fun t => fallback_body_congr a b c h i t
    simp only [Kernel.fn, calculate_diff_fallback, e]
  · have e : calculate_diff_sse.body a b = calculate_diff_sse.body a c :=
      funext fun i => funext fun t => sse_body_congr a b c h i t
    simp only [Kernel.fn, calculate_diff_sse, e]
  · have e : calculate_diff_avx2.body a b = calculate_diff_avx2.body a c :=
      funext fun i => funext fun t => avx2_body_congr a b c h i t
    simp only [Kernel.fn, calculate_diff_avx2, e]
  · have e : arm.calculate_diff_neon.body a b = arm.calculate_diff_neon.body a c :=
      funext fun i => funext fun t => neon_arm_body_congr a b c h i t
    simp only [Kernel.fn, arm.calculate_diff_neon, e]
  · have e : arm64.calculate_diff_neon.body a b = arm64.calculate_diff_neon.body a c :=
      funext fun i => funext fun t => neon_arm64_body_congr a b c h i t
    simp only [Kernel.fn, arm64.calculate_diff_neon, e]

/-! ## The candidate slice and the pointer into the pool -/

theorem slice_agree (query pool : List Int) (start : Int) (hs : 0 ≤ start) :
    AgreeWhereDefined (Ptr.ofList query) ((Ptr.ofList pool).add start)
      (Ptr.ofList (slice pool start (query.length : Int))) := by
  intro j hj
  have hjl : j < query.length := by
    by_contra hc
    exact hj (load_ofList_of_le query j (by omega))
  rw [load_ofList]
  simp only [Ptr.load, Ptr.add, Ptr.ofList, slice]
  have h0 : 0 ≤ (0 : Int) + start + (j : Int) := by omega
  rw [if_pos h0, List.getElem?_take, if_pos (by simpa using hjl), List.getElem?_drop]
  congr 1
  omega

theorem batch_length (calculator : DiffCalculator) (inputArr pool offsets mxy : List Int) :
    (calculateDifferencesBatch calculator inputArr pool offsets mxy).length
      = offsets.length / 2 := by
  simp [calculateDifferencesBatch]

theorem batch_getElem (calculator : DiffCalculator) (inputArr pool offsets mxy : List Int)
    (i : Nat) (hi : i < offsets.length / 2) :
    (calculateDifferencesBatch calculator inputArr pool offsets mxy)[i]?
      = some (if elem offsets (2 * i + 1) ≠ (inputArr.length : Int) then some INT64_MAX
          else calculator (Ptr.ofList inputArr) ((Ptr.ofList pool).add (elem offsets (2 * i)))
            (Int.tdiv (elem offsets (2 * i + 1)) 2)) := by
  simp only [calculateDifferencesBatch, List.getElem?_map, List.getElem?_range hi,
    Option.map_some', calculateDifferencesBatch.body]
  rw [Nat.mul_comm i 2, load_ofList_of_lt offsets (2 * i) (by omega),
    load_ofList_of_lt offsets (2 * i + 1) (by omega)]
  simp only [Option.bind_eq_bind, Option.some_bind, Option.pure_def]

/-! ## Exactness of the scalar kernel -/

theorem exactTerm_nonneg (A B : List Int) (i : Nat) : 0 ≤ exactTerm A B i := by
  unfold exactTerm
  positivity

theorem exactSum_nonneg (A B : List Int) (n : Nat) : 0 ≤ exactSum A B n :=
  sumTo_nonneg _ _ (fun k _ => exactTerm_nonneg A B k)

theorem machineSum_eq_exactSum (A B : List Int) (n : Nat)
    (hd : ∀ j, j < 2 * n → isInt32 (elem A j - elem B j)) :
    machineSum A B n = exactSum A B n := by
  apply sumTo_congr
  intro k hk
  have h0 := hd (2 * k) (by omega)
  have h1 := hd (2 * k + 1) (by omega)
  unfold machineTerm exactTerm delta32
  rw [wrap32_of_range h0.1 h0.2, wrap32_of_range h1.1 h1.2]
  ring

/-! ## Claims -/

/-- C1 (as amended): for every point count `n` and all buffers `A`, `B` of length `2n` such
that every coordinate difference `A[j] - B[j]` fits in a signed 32-bit integer and the exact
sum of squared differences is at most `2^63 - 1`, `calculate_diff_fallback(A, B, n)` returns
the exact integer sum over `i < n` of `(A[2i]-B[2i])^2 + (A[2i+1]-B[2i+1])^2`. -/
theorem calculate_diff_fallback_exact (A B : List Int) (n : Nat)
    (hA : A.length = 2 * n) (hB : B.length = 2 * n)
    (hd : ∀ j, j < 2 * n → isInt32 (elem A j - elem B j))
    (hs : exactSum A B n ≤ INT64_MAX) :
    calculate_diff_fallback (Ptr.ofList A) (Ptr.ofList B) (n : Int)
      = some (exactSum A B n) := by
  rw [fallback_closed A B n (by omega) (by omega), machineSum_eq_exactSum A B n hd]
  have h0 := exactSum_nonneg A B n
  unfold INT64_MAX at hs
  rw [wrap64_of_range (by omega) (by omega)]

/-- C1 (witness): the amended statement at `A = [0,0,1,1]`, `B = [2,2,3,3]`, `n = 2`, where
the kernel returns the exact sum 16. -/
theorem calculate_diff_fallback_exact_witness :
    calculate_diff_fallback (Ptr.ofList [0, 0, 1, 1]) (Ptr.ofList [2, 2, 3, 3]) ((2 : Nat) : Int)
      = some (exactSum [0, 0, 1, 1] [2, 2, 3, 3] 2) :=
  calculate_diff_fallback_exact [0, 0, 1, 1] [2, 2, 3, 3] 2 (by decide) (by decide)
    (by decide) (by decide)

/-- C1 (counterexample): for the signed 32-bit buffers `A = [2147483647, 0]`, `B = [-2, 0]`
and `n = 1` the exact sum is `(2^31 + 1)^2 = 4611686022722355201`, but the 32-bit subtraction
wraps to `-(2^31 - 1)` and `calculate_diff_fallback` returns
`(2^31 - 1)^2 = 4611686014132420609`. -/
theorem calculate_diff_fallback_exact_counterexample :
    (∀ x ∈ [2147483647, 0], isInt32 x) ∧ (∀ x ∈ [-2, 0], isInt32 x) ∧
    exactSum [2147483647, 0] [-2, 0] 1 = 4611686022722355201 ∧
    calculate_diff_fallback (Ptr.ofList [2147483647, 0]) (Ptr.ofList [-2, 0]) 1
      = some 4611686014132420609 ∧
    calculate_diff_fallback (Ptr.ofList [2147483647, 0]) (Ptr.ofList [-2, 0]) 1
      ≠ some (exactSum [2147483647, 0] [-2, 0] 1) := by
  refine ⟨by decide, by decide, by decide, by decide, by decide⟩

/-- C2: for every kernel realization `K` the dispatcher can select, every query, pool and
offset table, the batch evaluator returns exactly `len(offsets) / 2` scores, and for every
candidate index `i` with `(start, length) = (offsets[2i], offsets[2i+1])`: the score is the
sentinel `INT64_MAX` if `length != len(query)`, and otherwise (the slice starting at a
non-negative `start`) it is `K(query, pool[start : start+length], length/2)`.  Each entry is
determined by its own pair alone, so no candidate changes or suppresses another's score. -/
theorem calculateDifferencesBatch_spec (K : Kernel) (query pool offsets mxy : List Int) :
    (calculateDifferencesBatch K.fn query pool offsets mxy).length = offsets.length / 2 ∧
    ∀ i, i < offsets.length / 2 →
      (elem offsets (2 * i + 1) ≠ (query.length : Int) →
        (calculateDifferencesBatch K.fn query pool offsets mxy)[i]? = some (some INT64_MAX)) ∧
      (elem offsets (2 * i + 1) = (query.length : Int) → 0 ≤ elem offsets (2 * i) →
        (calculateDifferencesBatch K.fn query pool offsets mxy)[i]?
          = some (K.fn (Ptr.ofList query)
              (Ptr.ofList (slice pool (elem offsets (2 * i)) (elem offsets (2 * i + 1))))
              (elem offsets (2 * i + 1) / 2))) := by
  refine ⟨batch_length _ _ _ _ _, fun i hi => ⟨fun hne => ?_, fun heq hs => ?_⟩⟩
  · rw [batch_getElem _ _ _ _ _ i hi, if_pos hne]
  · rw [batch_getElem _ _ _ _ _ i hi, if_neg (by simpa using heq), heq,
      Int.tdiv_eq_ediv (by omega) (by omega),
      kernel_congr K _ _ _ _ (slice_agree query pool _ hs)]

/-- C2 (witness): query `[0,0,1,1]`, pool `[0,0,1,1,2,2,3,3]`, offsets `[0,4,4,4,0,6]` and
the scalar kernel: three scores, the second is the kernel's value on the slice `pool[4:8]`,
the third (declared length 6) is the sentinel. -/
theorem calculateDifferencesBatch_spec_witness :
    (calculateDifferencesBatch Kernel.fallback.fn [0, 0, 1, 1] [0, 0, 1, 1, 2, 2, 3, 3]
        [0, 4, 4, 4, 0, 6] []).length = 3 ∧
    (calculateDifferencesBatch Kernel.fallback.fn [0, 0, 1, 1] [0, 0, 1, 1, 2, 2, 3, 3]
        [0, 4, 4, 4, 0, 6] [])[1]?
      = some (Kernel.fallback.fn (Ptr.ofList [0, 0, 1, 1])
          (Ptr.ofList (slice [0, 0, 1, 1, 2, 2, 3, 3] 4 4)) 2) ∧
    (calculateDifferencesBatch Kernel.fallback.fn [0, 0, 1, 1] [0, 0, 1, 1, 2, 2, 3, 3]
        [0, 4, 4, 4, 0, 6] [])[2]? = some (some INT64_MAX) :=
  ⟨(calculateDifferencesBatch_spec Kernel.fallback [0, 0, 1, 1] [0, 0, 1, 1, 2, 2, 3, 3]
      [0, 4, 4, 4, 0, 6] []).1,
   ((calculateDifferencesBatch_spec Kernel.fallback [0, 0, 1, 1] [0, 0, 1, 1, 2, 2, 3, 3]
      [0, 4, 4, 4, 0, 6] []).2 1 (by decide)).2 (by decide) (by decide),
   ((calculateDifferencesBatch_spec Kernel.fallback [0, 0, 1, 1] [0, 0, 1, 1, 2, 2, 3, 3]
      [0, 4, 4, 4, 0, 6] []).2 2 (by decide)).1 (by decide)⟩

/-- C3: for every kernel, query, pool and offset table, every candidate whose declared length
(in elements) differs from the query's element count scores the sentinel `INT64_MAX`,
whatever the buffers contain; in particular, against a query of 4 elements a candidate of
declared length 6 scores the sentinel, and so does one of declared length 5, although
`5 / 2 = 2` is the query's point count. -/
theorem calculateDifferencesBatch_mismatch (calculator : DiffCalculator)
    (query pool mxy : List Int) :
    (∀ (offsets : List Int) (i : Nat), i < offsets.length / 2 →
      elem offsets (2 * i + 1) ≠ (query.length : Int) →
      (calculateDifferencesBatch calculator query pool offsets mxy)[i]?
        = some (some INT64_MAX)) ∧
    (query.length = 4 → ∀ start : Int,
      calculateDifferencesBatch calculator query pool [start, 6] mxy = [some INT64_MAX] ∧
      calculateDifferencesBatch calculator query pool [start, 5] mxy = [some INT64_MAX] ∧
      Int.tdiv 5 2 = ((query.length / 2 : Nat) : Int)) := by
  refine ⟨fun offsets i hi hne => ?_, fun h4 start => ⟨?_, ?_, ?_⟩⟩
  · rw [batch_getElem _ _ _ _ _ i hi, if_pos hne]
  · have hr : List.range 1 = [0] := by decide
    simp [calculateDifferencesBatch, hr, calculateDifferencesBatch.body, Ptr.load, Ptr.ofList,
      h4]
  · have hr : List.range 1 = [0] := by decide
    simp [calculateDifferencesBatch, hr, calculateDifferencesBatch.body, Ptr.load, Ptr.ofList,
      h4]
  · rw [h4]; decide

/-- C3 (witness): query `[7,7,7,7]` (4 elements) against candidates of declared lengths 6
and 5 under the scalar kernel: both scores are the sentinel. -/
theorem calculateDifferencesBatch_mismatch_witness :
    (calculateDifferencesBatch calculate_diff_fallback [7, 7, 7, 7] [7, 7, 7, 7, 7, 7]
        [0, 6, 0, 5] [])[0]? = some (some INT64_MAX) ∧
    (calculateDifferencesBatch calculate_diff_fallback [7, 7, 7, 7] [7, 7, 7, 7, 7, 7]
        [0, 6, 0, 5] [])[1]? = some (some INT64_MAX) ∧
    calculateDifferencesBatch calculate_diff_fallback [7, 7, 7, 7] [7, 7, 7, 7, 7, 7]
        [0, 5] [] = [some INT64_MAX] :=
  ⟨(calculateDifferencesBatch_mismatch calculate_diff_fallback [7, 7, 7, 7]
      [7, 7, 7, 7, 7, 7] []).1 [0, 6, 0, 5] 0 (by decide) (by decide),
   (calculateDifferencesBatch_mismatch calculate_diff_fallback [7, 7, 7, 7]
      [7, 7, 7, 7, 7, 7] []).1 [0, 6, 0, 5] 1 (by decide) (by decide),
   ((calculateDifferencesBatch_mismatch calculate_diff_fallback [7, 7, 7, 7]
      [7, 7, 7, 7, 7, 7] []).2 (by decide) 0).2.1⟩

theorem slice_length (pool : List Int) (start len : Int) (hs : 0 ≤ start) (hl : 0 ≤ len)
    (hin : start + len ≤ (pool.length : Int)) : (slice pool start len).length = len.toNat := by
  simp only [slice, List.length_take, List.length_drop]
  omega

/-- C4 (as amended): for every batch input evaluated with the scalar kernel and every
candidate whose declared length equals the query's element count (candidate slice inside the
pool), if the sum over the candidate's points of the squared 32-bit coordinate differences is
below `2^63 - 1`, then the score is that sum; it is non-negative and is not the sentinel
`INT64_MAX`. -/
theorem calculateDifferencesBatch_fallback_score (query pool offsets mxy : List Int) (i : Nat)
    (hi : i < offsets.length / 2)
    (hlen : elem offsets (2 * i + 1) = (query.length : Int))
    (hs : 0 ≤ elem offsets (2 * i))
    (hin : elem offsets (2 * i) + (query.length : Int) ≤ (pool.length : Int))
    (hsum : machineSum query (slice pool (elem offsets (2 * i)) (query.length : Int))
      (query.length / 2) < INT64_MAX) :
    ∃ v : Int,
      (calculateDifferencesBatch calculate_diff_fallback query pool offsets mxy)[i]?
        = some (some v) ∧
      v = machineSum query (slice pool (elem offsets (2 * i)) (query.length : Int))
        (query.length / 2) ∧
      0 ≤ v ∧ v ≠ INT64_MAX := by
  have hk := kernel_congr Kernel.fallback _ _ _
    (Int.tdiv (query.length : Int) 2) (slice_agree query pool _ hs)
  simp only [Kernel.fn] at hk
  have hc : Int.tdiv (query.length : Int) 2 = ((query.length / 2 : Nat) : Int) := by
    rw [Int.tdiv_eq_ediv (by omega) (by omega)]
    norm_cast
  have hsl := slice_length pool (elem offsets (2 * i)) (query.length : Int) hs (by omega) hin
  have hcl := fallback_closed query (slice pool (elem offsets (2 * i)) (query.length : Int))
    (query.length / 2) (by omega) (by rw [hsl]; simp; omega)
  have h0 := machineSum_nonneg query (slice pool (elem offsets (2 * i)) (query.length : Int))
    (query.length / 2)
  refine ⟨_, ?_, rfl, h0, ne_of_lt hsum⟩
  rw [batch_getElem _ _ _ _ _ i hi, if_neg (by simpa using hlen), hlen, hk, hc, hcl]
  unfold INT64_MAX at hsum
  rw [wrap64_of_range (by omega) (by omega)]

/-- C4 (witness): query `[0,0,1,1]`, pool `[0,0,1,1,2,2,3,3]`, offsets `[0,4,4,4]`,
candidate 1: the score exists, equals the sum of squared differences, is non-negative and is
not the sentinel. -/
theorem calculateDifferencesBatch_fallback_score_witness :
    ∃ v : Int,
      (calculateDifferencesBatch calculate_diff_fallback [0, 0, 1, 1] [0, 0, 1, 1, 2, 2, 3, 3]
          [0, 4, 4, 4] [])[1]? = some (some v) ∧
      v = machineSum [0, 0, 1, 1] (slice [0, 0, 1, 1, 2, 2, 3, 3] 4 4) 2 ∧
      0 ≤ v ∧ v ≠ INT64_MAX :=
  calculateDifferencesBatch_fallback_score [0, 0, 1, 1] [0, 0, 1, 1, 2, 2, 3, 3] [0, 4, 4, 4]
    [] 1 (by decide) (by decide) (by decide) (by decide) (by decide)

/-- C4 (counterexample): with the scalar kernel and signed 32-bit coordinates, a candidate of
matching length inside the pool can score negative, and can score exactly the sentinel.
Query `[-2^31, -2^31]` against `[0, 0]`: the sum `2^62 + 2^62 = 2^63` wraps to `-2^63`.
Query `[-2^31, 2^31-1, 65535, 362, 5, 0]` against zeros: the exact sum is `2^63 - 1`. -/
theorem calculateDifferencesBatch_fallback_score_counterexample :
    (∀ x ∈ [-2147483648, 2147483647, 65535, 362, 5, 0], isInt32 x) ∧
    calculateDifferencesBatch calculate_diff_fallback [-2147483648, -2147483648] [0, 0]
        [0, 2] [] = [some (-9223372036854775808)] ∧
    calculateDifferencesBatch calculate_diff_fallback
        [-2147483648, 2147483647, 65535, 362, 5, 0] [0, 0, 0, 0, 0, 0] [0, 6] []
      = [some INT64_MAX] := by
  refine ⟨by decide, by decide, by decide⟩

/-- C5: with the scalar fallback as the selected kernel, the batch evaluator applied to query
`[0,0,1,1]`, pool `[0,0,1,1,2,2,3,3]` and offsets `[0,4,4,4]` returns the scores `[0, 16]`. -/
theorem calculateDifferencesBatch_scenario :
    calculateDifferencesBatch calculate_diff_fallback [0, 0, 1, 1] [0, 0, 1, 1, 2, 2, 3, 3]
      [0, 4, 4, 4] [] = [some 0, some 16] := by
  decide

/-- C6 (failing input): at `n = 4` (a multiple of 4) with `B` all zero, `calculate_diff_sse`
returns 0 for `A = [0,0,3,4,0,0,0,0]` where `calculate_diff_fallback` returns 25, and returns
2 for `A = [1,0,0,0,0,0,0,0]` where `calculate_diff_fallback` returns 1. -/
theorem calculate_diff_sse_differs_from_fallback :
    calculate_diff_sse (Ptr.ofList [0, 0, 3, 4, 0, 0, 0, 0])
        (Ptr.ofList [0, 0, 0, 0, 0, 0, 0, 0]) 4 = some 0 ∧
    calculate_diff_fallback (Ptr.ofList [0, 0, 3, 4, 0, 0, 0, 0])
        (Ptr.ofList [0, 0, 0, 0, 0, 0, 0, 0]) 4 = some 25 ∧
    calculate_diff_sse (Ptr.ofList [1, 0, 0, 0, 0, 0, 0, 0])
        (Ptr.ofList [0, 0, 0, 0, 0, 0, 0, 0]) 4 = some 2 ∧
    calculate_diff_fallback (Ptr.ofList [1, 0, 0, 0, 0, 0, 0, 0])
        (Ptr.ofList [0, 0, 0, 0, 0, 0, 0, 0]) 4 = some 1 := by
  refine ⟨by decide, by decide, by decide, by decide⟩

/-- C7 (failing input): at `n = 8` (a multiple of 8) with `B` all zero,
`calculate_diff_avx2` returns 0 for `A = [0,0,3,4,0,...,0]` where `calculate_diff_fallback`
returns 25, and returns 2 for `A = [1,0,...,0]` where `calculate_diff_fallback` returns 1. -/
theorem calculate_diff_avx2_differs_from_fallback :
    calculate_diff_avx2 (Ptr.ofList [0, 0, 3, 4, 0, 0, 0, 0, 0, 0, 0, 0, 0, 0, 0, 0])
        (Ptr.ofList [0, 0, 0, 0, 0, 0, 0, 0, 0, 0, 0, 0, 0, 0, 0, 0]) 8 = some 0 ∧
    calculate_diff_fallback (Ptr.ofList [0, 0, 3, 4, 0, 0, 0, 0, 0, 0, 0, 0, 0, 0, 0, 0])
        (Ptr.ofList [0, 0, 0, 0, 0, 0, 0, 0, 0, 0, 0, 0, 0, 0, 0, 0]) 8 = some 25 ∧
    calculate_diff_avx2 (Ptr.ofList [1, 0, 0, 0, 0, 0, 0, 0, 0, 0, 0, 0, 0, 0, 0, 0])
        (Ptr.ofList [0, 0, 0, 0, 0, 0, 0, 0, 0, 0, 0, 0, 0, 0, 0, 0]) 8 = some 2 ∧
    calculate_diff_fallback (Ptr.ofList [1, 0, 0, 0, 0, 0, 0, 0, 0, 0, 0, 0, 0, 0, 0, 0])
        (Ptr.ofList [0, 0, 0, 0, 0, 0, 0, 0, 0, 0, 0, 0, 0, 0, 0, 0]) 8 = some 1 := by
  refine ⟨by decide, by decide, by decide, by decide⟩

/-- C8 (failing input): at `n = 4` (a multiple of 4) with `B` all zero, the aarch64
`calculate_diff_neon` returns 0 for `A = [0,0,0,0,3,4,0,0]` (only the third point differs)
where `calculate_diff_fallback` returns 25. -/
theorem calculate_diff_neon_differs_from_fallback :
    arm64.calculate_diff_neon (Ptr.ofList [0, 0, 0, 0, 3, 4, 0, 0])
        (Ptr.ofList [0, 0, 0, 0, 0, 0, 0, 0]) 4 = some 0 ∧
    calculate_diff_fallback (Ptr.ofList [0, 0, 0, 0, 3, 4, 0, 0])
        (Ptr.ofList [0, 0, 0, 0, 0, 0, 0, 0]) 4 = some 25 := by
  refine ⟨by decide, by decide⟩

theorem tripCount_roundUp (n step : Nat) (hstep : 0 < step) :
    tripCount ((step * ((n + (step - 1)) / step) : Nat) : Int) step
      = tripCount (n : Int) step := by
  simp only [tripCount, Int.toNat_ofNat]
  rw [Nat.add_comm, Nat.add_mul_div_left _ _ hstep, Nat.div_eq_of_lt (by omega), Nat.zero_add]

/-- C9 (as amended): for every vector kernel (`calculate_diff_sse` and `calculate_diff_neon`
with batch size 4, `calculate_diff_avx2` with batch size 8), every point count `n >= 0` and
all buffers, a partial trailing batch is processed like a whole one: the kernel at `n`
returns what it returns at `n` rounded up to the next multiple of the batch size (and is
undefined at `n` exactly when it is undefined there). -/
theorem vector_kernels_round_up (a b : Ptr) (n : Nat) :
    calculate_diff_sse a b (n : Int)
      = calculate_diff_sse a b ((4 * ((n + 3) / 4) : Nat) : Int) ∧
    calculate_diff_avx2 a b (n : Int)
      = calculate_diff_avx2 a b ((8 * ((n + 7) / 8) : Nat) : Int) ∧
    arm.calculate_diff_neon a b (n : Int)
      = arm.calculate_diff_neon a b ((4 * ((n + 3) / 4) : Nat) : Int) ∧
    arm64.calculate_diff_neon a b (n : Int)
      = arm64.calculate_diff_neon a b ((4 * ((n + 3) / 4) : Nat) : Int) := by
  have h4 := tripCount_roundUp n 4 (by omega)
  have h8 := tripCount_roundUp n 8 (by omega)
  refine ⟨?_, ?_, ?_, ?_⟩
  · unfold calculate_diff_sse
    rw [forLoop_kernel n 4 (by omega), forLoop_kernel (4 * ((n + 3) / 4)) 4 (by omega), ← h4]
  · unfold calculate_diff_avx2
    rw [forLoop_kernel n 8 (by omega), forLoop_kernel (8 * ((n + 7) / 8)) 8 (by omega), ← h8]
  · unfold arm.calculate_diff_neon
    rw [forLoop_kernel n 4 (by omega), forLoop_kernel (4 * ((n + 3) / 4)) 4 (by omega), ← h4]
  · unfold arm64.calculate_diff_neon
    rw [forLoop_kernel n 4 (by omega), forLoop_kernel (4 * ((n + 3) / 4)) 4 (by omega), ← h4]

/-- C9 (counterexample): at `n = 1` (not a multiple of the batch size), with buffers large
enough for every load, the trailing point is processed: each vector kernel returns a non-zero
value at `n = 1` and 0 at `B * floor(1 / B) = 0`. -/
theorem vector_kernels_tail_counterexample :
    calculate_diff_sse (Ptr.ofList [1, 0, 0, 0]) (Ptr.ofList [0, 0, 0, 0]) 1 = some 2 ∧
    calculate_diff_sse (Ptr.ofList [1, 0, 0, 0]) (Ptr.ofList [0, 0, 0, 0]) (4 * (1 / 4))
      = some 0 ∧
    calculate_diff_avx2 (Ptr.ofList [1, 0, 0, 0, 0, 0, 0, 0]) (Ptr.ofList [0, 0, 0, 0, 0, 0, 0, 0])
      1 = some 2 ∧
    calculate_diff_avx2 (Ptr.ofList [1, 0, 0, 0, 0, 0, 0, 0]) (Ptr.ofList [0, 0, 0, 0, 0, 0, 0, 0])
      (8 * (1 / 8)) = some 0 ∧
    arm64.calculate_diff_neon (Ptr.ofList [1, 0, 0, 0, 0, 0, 0, 0])
      (Ptr.ofList [0, 0, 0, 0, 0, 0, 0, 0]) 1 = some 1 ∧
    arm64.calculate_diff_neon (Ptr.ofList [1, 0, 0, 0, 0, 0, 0, 0])
      (Ptr.ofList [0, 0, 0, 0, 0, 0, 0, 0]) (4 * (1 / 4)) = some 0 := by
  refine ⟨by decide, by decide, by decide, by decide, by decide, by decide⟩

/-- C10 (failing input): at `n = 1` with buffers `a = b = [0, 0]` of exactly `2n` elements,
`calculate_diff_fallback` returns 0, while `calculate_diff_sse`, `calculate_diff_avx2` and
both `calculate_diff_neon` realizations load elements at indices `>= 2` and end in the
out-of-bounds branch; the batch evaluator reaches this call with query `[0, 0]`, pool `[0, 0]`
and offsets `[0, 2]`. -/
theorem vector_kernels_read_past_2n :
    calculate_diff_fallback (Ptr.ofList [0, 0]) (Ptr.ofList [0, 0]) 1 = some 0 ∧
    calculate_diff_sse (Ptr.ofList [0, 0]) (Ptr.ofList [0, 0]) 1 = none ∧
    calculate_diff_avx2 (Ptr.ofList [0, 0]) (Ptr.ofList [0, 0]) 1 = none ∧
    arm.calculate_diff_neon (Ptr.ofList [0, 0]) (Ptr.ofList [0, 0]) 1 = none ∧
    arm64.calculate_diff_neon (Ptr.ofList [0, 0]) (Ptr.ofList [0, 0]) 1 = none ∧
    calculateDifferencesBatch calculate_diff_sse [0, 0] [0, 0] [0, 2] [] = [none] := by
  refine ⟨by decide, by decide, by decide, by decide, by decide, by decide⟩

/-! ## Dispatcher, store order and argument arrays -/

/-- C11: `get_optimized_calculator` is a total function of the build flags and follows the
fixed preference order: the AVX2 kernel whenever `__AVX2__` is defined; otherwise the SSE
kernel whenever `__SSE3__` is defined; otherwise a NEON kernel whenever
`__ARM_NEON && __aarch64__` or `__ARM_NEON__` holds; and the scalar fallback exactly when
none of these holds. -/
theorem get_optimized_calculator_order (f : BuildFlags) :
    (∃ k : Kernel, get_optimized_calculator f = k ∧
      ∀ k' : Kernel, get_optimized_calculator f = k' → k' = k) ∧
    (f.AVX2 = true → get_optimized_calculator f = Kernel.avx2) ∧
    (f.AVX2 = false → f.SSE3 = true → get_optimized_calculator f = Kernel.sse) ∧
    (f.AVX2 = false → f.SSE3 = false →
      ((f.ARM_NEON && f.aarch64) = true ∨ f.ARM_NEON__ = true) →
      (get_optimized_calculator f = Kernel.neon_arm64 ∨
        get_optimized_calculator f = Kernel.neon_arm)) ∧
    (get_optimized_calculator f = Kernel.fallback ↔
      (f.AVX2 = false ∧ f.SSE3 = false ∧ (f.ARM_NEON && f.aarch64) = false ∧
        f.ARM_NEON__ = false)) := by
  refine ⟨⟨_, rfl, fun k' h => h.symm⟩, ?_⟩
  rcases f with ⟨a, s, n, r, m⟩
  cases a <;> cases s <;> cases n <;> cases r <;> cases m <;>
    simp [get_optimized_calculator]

/-- C11 (witness): a build with both `__AVX2__` and `__SSE3__` selects the AVX2 kernel, a
build with only `__SSE3__` the SSE kernel, a 32-bit arm build with `__ARM_NEON__` a NEON
kernel, and a build with no flag the scalar fallback. -/
theorem get_optimized_calculator_order_witness :
    get_optimized_calculator ⟨true, true, false, false, false⟩ = Kernel.avx2 ∧
    get_optimized_calculator ⟨false, true, false, false, false⟩ = Kernel.sse ∧
    (get_optimized_calculator ⟨false, false, false, false, true⟩ = Kernel.neon_arm64 ∨
      get_optimized_calculator ⟨false, false, false, false, true⟩ = Kernel.neon_arm) ∧
    get_optimized_calculator ⟨false, false, false, false, false⟩ = Kernel.fallback :=
  ⟨(get_optimized_calculator_order ⟨true, true, false, false, false⟩).2.1 rfl,
   (get_optimized_calculator_order ⟨false, true, false, false, false⟩).2.2.1 rfl rfl,
   (get_optimized_calculator_order ⟨false, false, false, false, true⟩).2.2.2.1 rfl rfl
     (Or.inr rfl),
   (get_optimized_calculator_order ⟨false, false, false, false, false⟩).2.2.2.2.2
     ⟨rfl, rfl, rfl, rfl⟩⟩

theorem foldl_set_getElem? {α : Type} (g : Nat → α) (order : List Nat) :
    ∀ (init : List α) (i : Nat), i < init.length →
      (order.foldl (fun r j => r.set j (g j)) init)[i]?
        = if i ∈ order then some (g i) else init[i]? := by
  induction order with
  | nil => intro init i _; simp
  | cons j rest ih =>
    intro init i hi
    rw [List.foldl_cons, ih (init.set j (g j)) i (by simpa using hi)]
    by_cases hmem : i ∈ rest
    · simp [hmem]
    · by_cases hij : i = j
      · subst hij
        simp [hmem, List.getElem?_set_self, hi]
      · have hji : j ≠ i := fun h => hij h.symm
        simp [hmem, hij, List.getElem?_set_ne hji]

theorem foldl_set_length {α : Type} (g : Nat → α) (order : List Nat) :
    ∀ (init : List α), (order.foldl (fun r j => r.set j (g j)) init).length = init.length := by
  induction order with
  | nil => intro init; rfl
  | cons j rest ih => intro init; rw [List.foldl_cons, ih]; simp

theorem runOrder_eq_batch (calculator : DiffCalculator) (inputArr pool offsets mxy : List Int)
    (order : List Nat) (hp : order.Perm (List.range (offsets.length / 2))) :
    calculateDifferencesBatch.runOrder calculator inputArr pool offsets order
      = calculateDifferencesBatch calculator inputArr pool offsets mxy := by
  apply List.ext_getElem?
  intro i
  unfold calculateDifferencesBatch.runOrder calculateDifferencesBatch.store
  by_cases hi : i < offsets.length / 2
  · rw [foldl_set_getElem? _ order _ i (by simpa using hi),
      if_pos ((hp.mem_iff).2 (List.mem_range.2 hi))]
    simp [calculateDifferencesBatch, List.getElem?_range hi]
  · rw [List.getElem?_eq_none (by rw [foldl_set_length]; simpa using hi),
      List.getElem?_eq_none (by simpa [calculateDifferencesBatch] using hi)]

/-- C12: executing the per-candidate loop body, which stores only into `results[i]`, over any
permutation of the indices `0 .. numCandidates-1` yields the same score array as in-order
execution, and entry `i` is the value computed from the `i`-th `(start, length)` pair. -/
theorem calculateDifferencesBatch_order_independent (calculator : DiffCalculator)
    (inputArr pool offsets : List Int) (order : List Nat)
    (hp : order.Perm (List.range (offsets.length / 2))) :
    calculateDifferencesBatch.runOrder calculator inputArr pool offsets order
      = calculateDifferencesBatch.runOrder calculator inputArr pool offsets
          (List.range (offsets.length / 2)) ∧
    ∀ i, i < offsets.length / 2 →
      (calculateDifferencesBatch.runOrder calculator inputArr pool offsets order)[i]?
        = some (if elem offsets (2 * i + 1) ≠ (inputArr.length : Int) then some INT64_MAX
            else calculator (Ptr.ofList inputArr)
              ((Ptr.ofList pool).add (elem offsets (2 * i)))
              (Int.tdiv (elem offsets (2 * i + 1)) 2)) := by
  constructor
  · rw [runOrder_eq_batch calculator inputArr pool offsets [] order hp,
      runOrder_eq_batch calculator inputArr pool offsets [] _ (List.Perm.refl _)]
  · intro i hi
    rw [runOrder_eq_batch calculator inputArr pool offsets [] order hp,
      batch_getElem _ _ _ _ _ i hi]

/-- C12 (witness): query `[0,0,1,1]`, pool `[0,0,1,1,2,2,3,3]`, offsets `[0,4,4,4,0,6]`,
iterations executed in the order 2, 0, 1: the same array as in order 0, 1, 2. -/
theorem calculateDifferencesBatch_order_independent_witness :
    calculateDifferencesBatch.runOrder calculate_diff_fallback [0, 0, 1, 1]
        [0, 0, 1, 1, 2, 2, 3, 3] [0, 4, 4, 4, 0, 6] [2, 0, 1]
      = calculateDifferencesBatch.runOrder calculate_diff_fallback [0, 0, 1, 1]
          [0, 0, 1, 1, 2, 2, 3, 3] [0, 4, 4, 4, 0, 6] (List.range 3) :=
  (calculateDifferencesBatch_order_independent calculate_diff_fallback [0, 0, 1, 1]
    [0, 0, 1, 1, 2, 2, 3, 3] [0, 4, 4, 4, 0, 6] [2, 0, 1] (by decide)).1

/-- C13: the scores do not depend on the metadata buffer `allCandidateMxy`: for any two
metadata buffers and otherwise identical arguments the returned arrays are equal, and the
call leaves the metadata buffer (like the other three argument arrays) unchanged. -/
theorem calculateDifferencesBatch_ignores_mxy (calculator : DiffCalculator)
    (inputArr pool offsets mxy mxy' : List Int) :
    (calculateDifferencesBatch.call calculator inputArr pool offsets mxy).resultArray
      = (calculateDifferencesBatch.call calculator inputArr pool offsets mxy').resultArray ∧
    calculateDifferencesBatch calculator inputArr pool offsets mxy
      = calculateDifferencesBatch calculator inputArr pool offsets mxy' ∧
    (calculateDifferencesBatch.call calculator inputArr pool offsets mxy).resultArray
      = calculateDifferencesBatch calculator inputArr pool offsets mxy ∧
    (calculateDifferencesBatch.call calculator inputArr pool offsets mxy).allCandidateMxy
      = mxy ∧
    (calculateDifferencesBatch.call calculator inputArr pool offsets mxy).inputArr
      = inputArr ∧
    (calculateDifferencesBatch.call calculator inputArr pool offsets mxy).allCandidateArr
      = pool ∧
    (calculateDifferencesBatch.call calculator inputArr pool offsets mxy).offsets
      = offsets := by
  refine ⟨rfl, rfl, ?_, rfl, rfl, rfl, rfl⟩
  exact runOrder_eq_batch calculator inputArr pool offsets mxy _ (List.Perm.refl _)

/-! ## The two ARM realizations, bounded exactness and symmetry -/

theorem neon_body_eq (a b : Ptr) (i : Nat) (t : I64x2) :
    arm.calculate_diff_neon.body a b i t = arm64.calculate_diff_neon.body a b i t := by
  unfold arm.calculate_diff_neon.body arm64.calculate_diff_neon.body
  cases vld2q_s32 a (i * 2) with
  | none => rfl
  | some va =>
    cases vld2q_s32 b (i * 2) with
    | none => rfl
    | some vb =>
      simp only [Option.bind_eq_bind, Option.some_bind, Option.pure_def, vmull_s32,
        vmlal_s32, vaddq_s64, vget_low_s32, Option.some.injEq, I64x2.mk.injEq]
      constructor <;> (unfold wrap64; omega)

theorem neon_kernel_eq (a b : Ptr) (n : Int) :
    arm.calculate_diff_neon a b n = arm64.calculate_diff_neon a b n := by
  have e : arm.calculate_diff_neon.body a b = arm64.calculate_diff_neon.body a b :=
    funext fun i => funext fun t => neon_body_eq a b i t
  unfold arm.calculate_diff_neon arm64.calculate_diff_neon
  rw [e]
  rfl

/-- C14: the 32-bit arm and the aarch64 realization of `calculate_diff_neon` compute the same
function: for every point count and all buffers they return the same 64-bit value (and are
undefined on the same inputs). -/
theorem calculate_diff_neon_arm_eq_arm64 (a b : Ptr) (n : Int) :
    arm.calculate_diff_neon a b n = arm64.calculate_diff_neon a b n :=
  neon_kernel_eq a b n

/-- C15: for every `n` and buffers `A`, `B` of length `2n` such that every coordinate
difference `A[j] - B[j]` fits in a signed 32-bit integer and the exact sum of squared
differences is at most `2^63 - 1`, `calculate_diff_fallback(A, B, n)` (32-bit wrapping
subtraction, 64-bit wrapping accumulation) returns a value that equals the exact integer sum
and lies in `0 .. 2^63 - 1`. -/
theorem calculate_diff_fallback_bounded_exact (A B : List Int) (n : Nat)
    (hA : A.length = 2 * n) (hB : B.length = 2 * n)
    (hd : ∀ j, j < 2 * n → isInt32 (elem A j - elem B j))
    (hs : exactSum A B n ≤ 2 ^ 63 - 1) :
    ∃ v : Int, calculate_diff_fallback (Ptr.ofList A) (Ptr.ofList B) (n : Int) = some v ∧
      v = exactSum A B n ∧ 0 ≤ v ∧ v ≤ INT64_MAX := by
  have h0 := exactSum_nonneg A B n
  refine ⟨exactSum A B n, ?_, rfl, h0, by unfold INT64_MAX; exact hs⟩
  rw [fallback_closed A B n (by omega) (by omega), machineSum_eq_exactSum A B n hd,
    wrap64_of_range (by omega) (by omega)]

/-- C15 (witness): `A = [3, -4, 1000000, 0]`, `B = [0, 0, -1000000, 7]`, `n = 2`: the kernel
returns the exact sum `9 + 16 + 4000000000000 + 49`. -/
theorem calculate_diff_fallback_bounded_exact_witness :
    ∃ v : Int, calculate_diff_fallback (Ptr.ofList [3, -4, 1000000, 0])
        (Ptr.ofList [0, 0, -1000000, 7]) ((2 : Nat) : Int) = some v ∧
      v = exactSum [3, -4, 1000000, 0] [0, 0, -1000000, 7] 2 ∧ 0 ≤ v ∧ v ≤ INT64_MAX :=
  calculate_diff_fallback_bounded_exact [3, -4, 1000000, 0] [0, 0, -1000000, 7] 2
    (by decide) (by decide) (by decide) (by decide)

theorem wrap32_sub_comm_sq (x y : Int) :
    wrap32 (y - x) * wrap32 (y - x) = wrap32 (x - y) * wrap32 (x - y) := by
  have h : wrap32 (y - x) = -wrap32 (x - y) ∨ wrap32 (y - x) = wrap32 (x - y) := by
    unfold wrap32
    omega
  rcases h with h | h
  · rw [h]; ring
  · rw [h]

theorem fallback_body_symm (a b : Ptr) (i : Nat) (t : Int) :
    calculate_diff_fallback.body a b i t = calculate_diff_fallback.body b a i t := by
  unfold calculate_diff_fallback.body
  cases a.load (2 * i) <;> cases b.load (2 * i) <;> cases a.load (2 * i + 1) <;>
    cases b.load (2 * i + 1) <;>
    simp only [Option.bind_eq_bind, Option.some_bind, Option.none_bind, Option.pure_def]
  rename_i x0 y0 x1 y1
  rw [wrap32_sub_comm_sq x0 y0, wrap32_sub_comm_sq x1 y1]

/-- C19: under machine arithmetic (32-bit wrapping differences, 64-bit wrapping sum) the
scalar kernel is symmetric: for every point count `n` and all buffers `A`, `B`,
`calculate_diff_fallback(A, B, n) = calculate_diff_fallback(B, A, n)`. -/
theorem calculate_diff_fallback_symm (a b : Ptr) (n : Int) :
    calculate_diff_fallback a b n = calculate_diff_fallback b a n := by
  have e : calculate_diff_fallback.body a b = calculate_diff_fallback.body b a :=
    funext fun i => funext fun t => fallback_body_symm a b i t
  unfold calculate_diff_fallback
  rw [e]

/-! ## Closed forms of the vector kernels -/

theorem sumTo_add (f g : Nat → Int) (n : Nat) :
    sumTo (fun k => f k + g k) n = sumTo f n + sumTo g n := by
  induction n with
  | zero => simp [sumTo]
  | succ n ih =>
    simp only [sumTo]
    rw [ih]
    ring

theorem shuffle_2020 (v : I32x4) :
    _mm_shuffle_epi32 v (_MM_SHUFFLE 2 0 2 0) = ⟨v.e0, v.e2, v.e0, v.e2⟩ := by
  rfl

theorem shuffle_3131 (v : I32x4) :
    _mm_shuffle_epi32 v (_MM_SHUFFLE 3 1 3 1) = ⟨v.e1, v.e3, v.e1, v.e3⟩ := by
  rfl

theorem iterN_acc2 (step : Nat) (body : Nat → I64x2 → Option I64x2) (f g : Nat → Int) :
    ∀ (m k0 : Nat) (t0 t1 : Int),
      (∀ k, k0 ≤ k → k < k0 + m → ∀ u0 u1 : Int,
        body (step * k) ⟨wrap64 u0, wrap64 u1⟩ = some ⟨wrap64 (u0 + f k), wrap64 (u1 + g k)⟩) →
      iterN step body m (step * k0) ⟨wrap64 t0, wrap64 t1⟩
        = some ⟨wrap64 (t0 + sumTo (fun k => f (k0 + k)) m),
            wrap64 (t1 + sumTo (fun k => g (k0 + k)) m)⟩ := by
  intro m
  induction m with
  | zero =>
    intro k0 t0 t1 _
    simp [iterN, sumTo]
  | succ m ih =>
    intro k0 t0 t1 hb
    rw [iterN, hb k0 (by omega) (by omega)]
    simp only
    have e : step * k0 + step = step * (k0 + 1) := by ring
    rw [e, ih (k0 + 1) _ _ (fun k h1 h2 => hb k (by omega) (by omega)),
      sumTo_succ_front, sumTo_succ_front]
    have ef : (fun k => f (k0 + 1 + k)) = fun k => f (k0 + (k + 1)) := by
      funext k
      congr 1
      omega
    have eg : (fun k => g (k0 + 1 + k)) = fun k => g (k0 + (k + 1)) := by
      funext k
      congr 1
      omega
    rw [ef, eg]
    simp only [Nat.add_zero, add_assoc]

theorem sse_body_closed (A B : List Int) (k : Nat) (u0 u1 : Int)
    (hA : 8 * k + 3 < A.length) (hB : 8 * k + 3 < B.length) :
    calculate_diff_sse.body (Ptr.ofList A) (Ptr.ofList B) (4 * k) ⟨wrap64 u0, wrap64 u1⟩
      = some ⟨wrap64 (u0 + (delta32 A B (8 * k) * delta32 A B (8 * k)
                + delta32 A B (8 * k + 1) * delta32 A B (8 * k + 1))),
              wrap64 (u1 + (delta32 A B (8 * k) * delta32 A B (8 * k)
                + delta32 A B (8 * k + 1) * delta32 A B (8 * k + 1)))⟩ := by
  have e : 4 * k * 2 = 8 * k := by ring
  unfold calculate_diff_sse.body _mm_loadu_si128
  rw [e, load_ofList_of_lt A (8 * k) (by omega), load_ofList_of_lt A (8 * k + 1) (by omega),
    load_ofList_of_lt A (8 * k + 2) (by omega), load_ofList_of_lt A (8 * k + 3) (by omega),
    load_ofList_of_lt B (8 * k) (by omega), load_ofList_of_lt B (8 * k + 1) (by omega),
    load_ofList_of_lt B (8 * k + 2) (by omega), load_ofList_of_lt B (8 * k + 3) (by omega)]
  simp only [Option.bind_eq_bind, Option.some_bind, Option.pure_def, shuffle_2020,
    shuffle_3131, _mm_sub_epi32, _mm_mul_epi32, _mm_add_epi64, delta32, Option.some.injEq,
    I64x2.mk.injEq]
  constructor <;> (unfold wrap64; omega)

theorem sse_closed (A B : List Int) (n : Nat)
    (hA : ∀ k, 4 * k < n → 8 * k + 3 < A.length)
    (hB : ∀ k, 4 * k < n → 8 * k + 3 < B.length) :
    calculate_diff_sse (Ptr.ofList A) (Ptr.ofList B) (n : Int)
      = some (wrap64 (sumTo (sseTerm A B) ((n + 3) / 4))) := by
  have ht : tripCount (n : Int) 4 = (n + 3) / 4 := by simp [tripCount]
  have hz : _mm_setzero_si128 = ⟨wrap64 0, wrap64 0⟩ := by decide
  have h := iterN_acc2 4 (calculate_diff_sse.body (Ptr.ofList A) (Ptr.ofList B))
    (fun k => delta32 A B (8 * k) * delta32 A B (8 * k)
      + delta32 A B (8 * k + 1) * delta32 A B (8 * k + 1))
    (fun k => delta32 A B (8 * k) * delta32 A B (8 * k)
      + delta32 A B (8 * k + 1) * delta32 A B (8 * k + 1))
    ((n + 3) / 4) 0 0 0
    (fun k _ hk u0 u1 => sse_body_closed A B k u0 u1 (hA k (by omega)) (hB k (by omega)))
  unfold calculate_diff_sse
  rw [forLoop_kernel n 4 (by omega), ht, hz, h]
  simp only [Option.map_some', Option.some.injEq, Nat.zero_add, zero_add]
  have hs : sumTo (sseTerm A B) ((n + 3) / 4)
      = sumTo (fun k => delta32 A B (8 * k) * delta32 A B (8 * k)
          + delta32 A B (8 * k + 1) * delta32 A B (8 * k + 1)) ((n + 3) / 4)
        + sumTo (fun k => delta32 A B (8 * k) * delta32 A B (8 * k)
          + delta32 A B (8 * k + 1) * delta32 A B (8 * k + 1)) ((n + 3) / 4) := by
    rw [← sumTo_add]
    apply sumTo_congr
    intro k _
    unfold sseTerm
    ring
  rw [hs, wrap64_add_left, wrap64_add_right]

/-- C16: for every `n` and buffers in which every loaded element exists (elements
`8k .. 8k+3` for every `k` with `4k < n`), `calculate_diff_sse(A, B, n)` equals the sum over
`k` with `4k < n` of `2*(dx^2 + dy^2)`, `dx = A[8k]-B[8k]`, `dy = A[8k+1]-B[8k+1]` (32-bit
wrapped, summed mod `2^64`); hence buffers that agree at the indices `8k` and `8k+1` give the
same result, whatever the elements `8k+2 .. 8k+7` are. -/
theorem calculate_diff_sse_closed_form (A B : List Int) (n : Nat)
    (hA : ∀ k, 4 * k < n → 8 * k + 3 < A.length)
    (hB : ∀ k, 4 * k < n → 8 * k + 3 < B.length) :
    calculate_diff_sse (Ptr.ofList A) (Ptr.ofList B) (n : Int)
      = some (wrap64 (sumTo (sseTerm A B) ((n + 3) / 4))) ∧
    ∀ A' B' : List Int,
      (∀ k, 4 * k < n → 8 * k + 3 < A'.length) → (∀ k, 4 * k < n → 8 * k + 3 < B'.length) →
      (∀ k, 4 * k < n → elem A' (8 * k) = elem A (8 * k) ∧
        elem A' (8 * k + 1) = elem A (8 * k + 1) ∧ elem B' (8 * k) = elem B (8 * k) ∧
        elem B' (8 * k + 1) = elem B (8 * k + 1)) →
      calculate_diff_sse (Ptr.ofList A') (Ptr.ofList B') (n : Int)
        = calculate_diff_sse (Ptr.ofList A) (Ptr.ofList B) (n : Int) := by
  refine ⟨sse_closed A B n hA hB, fun A' B' hA' hB' he => ?_⟩
  rw [sse_closed A B n hA hB, sse_closed A' B' n hA' hB']
  congr 2
  apply sumTo_congr
  intro k hk
  obtain ⟨h1, h2, h3, h4⟩ := he k (by omega)
  unfold sseTerm delta32
  rw [h1, h2, h3, h4]

/-- C16 (witness): `n = 4`, `A = [3,4,9,9,9,9,9,9]`, `B` all zero: the kernel returns the
closed form, `2 * (9 + 16) = 50`. -/
theorem calculate_diff_sse_closed_form_witness :
    calculate_diff_sse (Ptr.ofList [3, 4, 9, 9, 9, 9, 9, 9])
        (Ptr.ofList [0, 0, 0, 0, 0, 0, 0, 0]) ((4 : Nat) : Int)
      = some (wrap64 (sumTo (sseTerm [3, 4, 9, 9, 9, 9, 9, 9] [0, 0, 0, 0, 0, 0, 0, 0])
          ((4 + 3) / 4))) ∧
    wrap64 (sumTo (sseTerm [3, 4, 9, 9, 9, 9, 9, 9] [0, 0, 0, 0, 0, 0, 0, 0]) ((4 + 3) / 4))
      = 50 :=
  ⟨(calculate_diff_sse_closed_form [3, 4, 9, 9, 9, 9, 9, 9] [0, 0, 0, 0, 0, 0, 0, 0] 4
      (by intro k hk; simp only [List.length_cons, List.length_nil]; omega)
      (by intro k hk; simp only [List.length_cons, List.length_nil]; omega)).1,
   by decide⟩

theorem shuffle256_2020 (v : I32x8) :
    _mm256_shuffle_epi32 v (_MM_SHUFFLE 2 0 2 0)
      = ⟨v.e0, v.e2, v.e0, v.e2, v.e4, v.e6, v.e4, v.e6⟩ := by
  rfl

theorem shuffle256_3131 (v : I32x8) :
    _mm256_shuffle_epi32 v (_MM_SHUFFLE 3 1 3 1)
      = ⟨v.e1, v.e3, v.e1, v.e3, v.e5, v.e7, v.e5, v.e7⟩ := by
  rfl

theorem iterN_acc4 (step : Nat) (body : Nat → I64x4 → Option I64x4) (f g : Nat → Int) :
    ∀ (m k0 : Nat) (t0 t1 t2 t3 : Int),
      (∀ k, k0 ≤ k → k < k0 + m → ∀ u0 u1 u2 u3 : Int,
        body (step * k) ⟨wrap64 u0, wrap64 u1, wrap64 u2, wrap64 u3⟩
          = some ⟨wrap64 (u0 + f k), wrap64 (u1 + f k), wrap64 (u2 + g k),
              wrap64 (u3 + g k)⟩) →
      iterN step body m (step * k0) ⟨wrap64 t0, wrap64 t1, wrap64 t2, wrap64 t3⟩
        = some ⟨wrap64 (t0 + sumTo (fun k => f (k0 + k)) m),
            wrap64 (t1 + sumTo (fun k => f (k0 + k)) m),
            wrap64 (t2 + sumTo (fun k => g (k0 + k)) m),
            wrap64 (t3 + sumTo (fun k => g (k0 + k)) m)⟩ := by
  intro m
  induction m with
  | zero =>
    intro k0 t0 t1 t2 t3 _
    simp [iterN, sumTo]
  | succ m ih =>
    intro k0 t0 t1 t2 t3 hb
    rw [iterN, hb k0 (by omega) (by omega)]
    simp only
    have e : step * k0 + step = step * (k0 + 1) := by ring
    rw [e, ih (k0 + 1) _ _ _ _ (fun k h1 h2 => hb k (by omega) (by omega)),
      sumTo_succ_front, sumTo_succ_front]
    have ef : (fun k => f (k0 + 1 + k)) = fun k => f (k0 + (k + 1)) := by
      funext k
      congr 1
      omega
    have eg : (fun k => g (k0 + 1 + k)) = fun k => g (k0 + (k + 1)) := by
      funext k
      congr 1
      omega
    rw [ef, eg]
    simp only [Nat.add_zero, add_assoc]

theorem avx2_body_closed (A B : List Int) (k : Nat) (u0 u1 u2 u3 : Int)
    (hA : 16 * k + 7 < A.length) (hB : 16 * k + 7 < B.length) :
    calculate_diff_avx2.body (Ptr.ofList A) (Ptr.ofList B) (8 * k)
        ⟨wrap64 u0, wrap64 u1, wrap64 u2, wrap64 u3⟩
      = some ⟨wrap64 (u0 + (delta32 A B (16 * k) * delta32 A B (16 * k)
                + delta32 A B (16 * k + 1) * delta32 A B (16 * k + 1))),
              wrap64 (u1 + (delta32 A B (16 * k) * delta32 A B (16 * k)
                + delta32 A B (16 * k + 1) * delta32 A B (16 * k + 1))),
              wrap64 (u2 + (delta32 A B (16 * k + 4) * delta32 A B (16 * k + 4)
                + delta32 A B (16 * k + 5) * delta32 A B (16 * k + 5))),
              wrap64 (u3 + (delta32 A B (16 * k + 4) * delta32 A B (16 * k + 4)
                + delta32 A B (16 * k + 5) * delta32 A B (16 * k + 5)))⟩ := by
  have e : 8 * k * 2 = 16 * k := by ring
  unfold calculate_diff_avx2.body _mm256_loadu_si256
  rw [e, load_ofList_of_lt A (16 * k) (by omega), load_ofList_of_lt A (16 * k + 1) (by omega),
    load_ofList_of_lt A (16 * k + 2) (by omega), load_ofList_of_lt A (16 * k + 3) (by omega),
    load_ofList_of_lt A (16 * k + 4) (by omega), load_ofList_of_lt A (16 * k + 5) (by omega),
    load_ofList_of_lt A (16 * k + 6) (by omega), load_ofList_of_lt A (16 * k + 7) (by omega),
    load_ofList_of_lt B (16 * k) (by omega), load_ofList_of_lt B (16 * k + 1) (by omega),
    load_ofList_of_lt B (16 * k + 2) (by omega), load_ofList_of_lt B (16 * k + 3) (by omega),
    load_ofList_of_lt B (16 * k + 4) (by omega), load_ofList_of_lt B (16 * k + 5) (by omega),
    load_ofList_of_lt B (16 * k + 6) (by omega), load_ofList_of_lt B (16 * k + 7) (by omega)]
  simp only [Option.bind_eq_bind, Option.some_bind, Option.pure_def, shuffle256_2020,
    shuffle256_3131, _mm256_sub_epi32, _mm256_mul_epi32, _mm256_add_epi64, delta32,
    Option.some.injEq, I64x4.mk.injEq]
  refine ⟨?_, ?_, ?_, ?_⟩ <;> (unfold wrap64; omega)

theorem avx2_closed (A B : List Int) (n : Nat)
    (hA : ∀ k, 8 * k < n → 16 * k + 7 < A.length)
    (hB : ∀ k, 8 * k < n → 16 * k + 7 < B.length) :
    calculate_diff_avx2 (Ptr.ofList A) (Ptr.ofList B) (n : Int)
      = some (wrap64 (sumTo (avx2Term A B) ((n + 7) / 8))) := by
  have ht : tripCount (n : Int) 8 = (n + 7) / 8 := by simp [tripCount]
  have hz : _mm256_setzero_si256 = ⟨wrap64 0, wrap64 0, wrap64 0, wrap64 0⟩ := by decide
  have h := iterN_acc4 8 (calculate_diff_avx2.body (Ptr.ofList A) (Ptr.ofList B))
    (fun k => delta32 A B (16 * k) * delta32 A B (16 * k)
      + delta32 A B (16 * k + 1) * delta32 A B (16 * k + 1))
    (fun k => delta32 A B (16 * k + 4) * delta32 A B (16 * k + 4)
      + delta32 A B (16 * k + 5) * delta32 A B (16 * k + 5))
    ((n + 7) / 8) 0 0 0 0 0
    (fun k _ hk u0 u1 u2 u3 =>
      avx2_body_closed A B k u0 u1 u2 u3 (hA k (by omega)) (hB k (by omega)))
  unfold calculate_diff_avx2
  rw [forLoop_kernel n 8 (by omega), ht, hz, h]
  simp only [Option.map_some', Option.some.injEq, Nat.zero_add, zero_add]
  have hs : sumTo (avx2Term A B) ((n + 7) / 8)
      = (sumTo (fun k => delta32 A B (16 * k) * delta32 A B (16 * k)
          + delta32 A B (16 * k + 1) * delta32 A B (16 * k + 1)) ((n + 7) / 8)
        + sumTo (fun k => delta32 A B (16 * k) * delta32 A B (16 * k)
          + delta32 A B (16 * k + 1) * delta32 A B (16 * k + 1)) ((n + 7) / 8))
        + (sumTo (fun k => delta32 A B (16 * k + 4) * delta32 A B (16 * k + 4)
          + delta32 A B (16 * k + 5) * delta32 A B (16 * k + 5)) ((n + 7) / 8)
        + sumTo (fun k => delta32 A B (16 * k + 4) * delta32 A B (16 * k + 4)
          + delta32 A B (16 * k + 5) * delta32 A B (16 * k + 5)) ((n + 7) / 8)) := by
    rw [← sumTo_add, ← sumTo_add, ← sumTo_add]
    apply sumTo_congr
    intro k _
    unfold avx2Term
    ring
  rw [hs]
  unfold wrap64
  omega

/-- C17: for every `n` and buffers in which every loaded element exists (elements
`16k .. 16k+7` for every `k` with `8k < n`), `calculate_diff_avx2(A, B, n)` equals the sum
over `k` with `8k < n` of `2*(d(16k)^2 + d(16k+1)^2) + 2*(d(16k+4)^2 + d(16k+5)^2)`,
`d(j) = A[j]-B[j]` (32-bit wrapped, summed mod `2^64`); hence buffers that agree at the
indices `16k`, `16k+1`, `16k+4`, `16k+5` give the same result, whatever the other elements
are. -/
theorem calculate_diff_avx2_closed_form (A B : List Int) (n : Nat)
    (hA : ∀ k, 8 * k < n → 16 * k + 7 < A.length)
    (hB : ∀ k, 8 * k < n → 16 * k + 7 < B.length) :
    calculate_diff_avx2 (Ptr.ofList A) (Ptr.ofList B) (n : Int)
      = some (wrap64 (sumTo (avx2Term A B) ((n + 7) / 8))) ∧
    ∀ A' B' : List Int,
      (∀ k, 8 * k < n → 16 * k + 7 < A'.length) →
      (∀ k, 8 * k < n → 16 * k + 7 < B'.length) →
      (∀ k, 8 * k < n → ∀ j, j = 0 ∨ j = 1 ∨ j = 4 ∨ j = 5 →
        elem A' (16 * k + j) = elem A (16 * k + j) ∧
        elem B' (16 * k + j) = elem B (16 * k + j)) →
      calculate_diff_avx2 (Ptr.ofList A') (Ptr.ofList B') (n : Int)
        = calculate_diff_avx2 (Ptr.ofList A) (Ptr.ofList B) (n : Int) := by
  refine ⟨avx2_closed A B n hA hB, fun A' B' hA' hB' he => ?_⟩
  rw [avx2_closed A B n hA hB, avx2_closed A' B' n hA' hB']
  congr 2
  apply sumTo_congr
  intro k hk
  have h0 := he k (by omega) 0 (by simp)
  have h1 := he k (by omega) 1 (by simp)
  have h4 := he k (by omega) 4 (by simp)
  have h5 := he k (by omega) 5 (by simp)
  rw [Nat.add_zero] at h0
  unfold avx2Term delta32
  rw [h0.1, h0.2, h1.1, h1.2, h4.1, h4.2, h5.1, h5.2]

/-- C17 (witness): `n = 8`, `A = [3,4,9,9,1,2,9,9,9,...]`, `B` all zero: the kernel returns
the closed form, `2 * (9 + 16) + 2 * (1 + 4) = 60`. -/
theorem calculate_diff_avx2_closed_form_witness :
    calculate_diff_avx2 (Ptr.ofList [3, 4, 9, 9, 1, 2, 9, 9, 9, 9, 9, 9, 9, 9, 9, 9])
        (Ptr.ofList [0, 0, 0, 0, 0, 0, 0, 0, 0, 0, 0, 0, 0, 0, 0, 0]) ((8 : Nat) : Int)
      = some (wrap64 (sumTo (avx2Term [3, 4, 9, 9, 1, 2, 9, 9, 9, 9, 9, 9, 9, 9, 9, 9]
          [0, 0, 0, 0, 0, 0, 0, 0, 0, 0, 0, 0, 0, 0, 0, 0]) ((8 + 7) / 8))) ∧
    wrap64 (sumTo (avx2Term [3, 4, 9, 9, 1, 2, 9, 9, 9, 9, 9, 9, 9, 9, 9, 9]
        [0, 0, 0, 0, 0, 0, 0, 0, 0, 0, 0, 0, 0, 0, 0, 0]) ((8 + 7) / 8)) = 60 :=
  ⟨(calculate_diff_avx2_closed_form [3, 4, 9, 9, 1, 2, 9, 9, 9, 9, 9, 9, 9, 9, 9, 9]
      [0, 0, 0, 0, 0, 0, 0, 0, 0, 0, 0, 0, 0, 0, 0, 0] 8
      (by intro k hk; simp only [List.length_cons, List.length_nil]; omega)
      (by intro k hk; simp only [List.length_cons, List.length_nil]; omega)).1,
   by decide⟩

theorem neon_body_closed (A B : List Int) (k : Nat) (u0 u1 : Int)
    (hA : 8 * k + 7 < A.length) (hB : 8 * k + 7 < B.length) :
    arm64.calculate_diff_neon.body (Ptr.ofList A) (Ptr.ofList B) (4 * k)
        ⟨wrap64 u0, wrap64 u1⟩
      = some ⟨wrap64 (u0 + (delta32 A B (8 * k) * delta32 A B (8 * k)
                + delta32 A B (8 * k + 1) * delta32 A B (8 * k + 1))),
              wrap64 (u1 + (delta32 A B (8 * k + 2) * delta32 A B (8 * k + 2)
                + delta32 A B (8 * k + 3) * delta32 A B (8 * k + 3)))⟩ := by
  have e : 4 * k * 2 = 8 * k := by ring
  unfold arm64.calculate_diff_neon.body vld2q_s32
  rw [e, load_ofList_of_lt A (8 * k) (by omega), load_ofList_of_lt A (8 * k + 1) (by omega),
    load_ofList_of_lt A (8 * k + 2) (by omega), load_ofList_of_lt A (8 * k + 3) (by omega),
    load_ofList_of_lt A (8 * k + 4) (by omega), load_ofList_of_lt A (8 * k + 5) (by omega),
    load_ofList_of_lt A (8 * k + 6) (by omega), load_ofList_of_lt A (8 * k + 7) (by omega),
    load_ofList_of_lt B (8 * k) (by omega), load_ofList_of_lt B (8 * k + 1) (by omega),
    load_ofList_of_lt B (8 * k + 2) (by omega), load_ofList_of_lt B (8 * k + 3) (by omega),
    load_ofList_of_lt B (8 * k + 4) (by omega), load_ofList_of_lt B (8 * k + 5) (by omega),
    load_ofList_of_lt B (8 * k + 6) (by omega), load_ofList_of_lt B (8 * k + 7) (by omega)]
  simp only [Option.bind_eq_bind, Option.some_bind, Option.pure_def, vsubq_s32, vmlal_s32,
    vget_low_s32, delta32, Option.some.injEq, I64x2.mk.injEq]
  constructor <;> (unfold wrap64; omega)

theorem neon_closed (A B : List Int) (n : Nat)
    (hA : ∀ k, 4 * k < n → 8 * k + 7 < A.length)
    (hB : ∀ k, 4 * k < n → 8 * k + 7 < B.length) :
    arm64.calculate_diff_neon (Ptr.ofList A) (Ptr.ofList B) (n : Int)
      = some (wrap64 (sumTo (neonTerm A B) ((n + 3) / 4))) := by
  have ht : tripCount (n : Int) 4 = (n + 3) / 4 := by simp [tripCount]
  have hz : vdupq_n_s64 0 = ⟨wrap64 0, wrap64 0⟩ := by decide
  have h := iterN_acc2 4 (arm64.calculate_diff_neon.body (Ptr.ofList A) (Ptr.ofList B))
    (fun k => delta32 A B (8 * k) * delta32 A B (8 * k)
      + delta32 A B (8 * k + 1) * delta32 A B (8 * k + 1))
    (fun k => delta32 A B (8 * k + 2) * delta32 A B (8 * k + 2)
      + delta32 A B (8 * k + 3) * delta32 A B (8 * k + 3))
    ((n + 3) / 4) 0 0 0
    (fun k _ hk u0 u1 => neon_body_closed A B k u0 u1 (hA k (by omega)) (hB k (by omega)))
  unfold arm64.calculate_diff_neon
  rw [forLoop_kernel n 4 (by omega), ht, hz, h]
  simp only [Option.map_some', Option.some.injEq, Nat.zero_add, zero_add, vaddvq_s64]
  have hs : sumTo (neonTerm A B) ((n + 3) / 4)
      = sumTo (fun k => delta32 A B (8 * k) * delta32 A B (8 * k)
          + delta32 A B (8 * k + 1) * delta32 A B (8 * k + 1)) ((n + 3) / 4)
        + sumTo (fun k => delta32 A B (8 * k + 2) * delta32 A B (8 * k + 2)
          + delta32 A B (8 * k + 3) * delta32 A B (8 * k + 3)) ((n + 3) / 4) := by
    rw [← sumTo_add]
    apply sumTo_congr
    intro k _
    unfold neonTerm
    ring
  rw [hs, wrap64_add_left, wrap64_add_right]

/-- C18: for every `n` and buffers in which every loaded element exists (elements
`8k .. 8k+7` for every `k` with `4k < n`), both realizations of `calculate_diff_neon` return
the sum over `k` with `4k < n` of `d(8k)^2 + d(8k+1)^2 + d(8k+2)^2 + d(8k+3)^2`,
`d(j) = A[j]-B[j]` (32-bit wrapped, summed mod `2^64`): of each batch of 4 points only the
first two are accumulated; hence buffers that agree at the indices `8k .. 8k+3` give the same
result, whatever the elements `8k+4 .. 8k+7` are. -/
theorem calculate_diff_neon_closed_form (A B : List Int) (n : Nat)
    (hA : ∀ k, 4 * k < n → 8 * k + 7 < A.length)
    (hB : ∀ k, 4 * k < n → 8 * k + 7 < B.length) :
    arm64.calculate_diff_neon (Ptr.ofList A) (Ptr.ofList B) (n : Int)
      = some (wrap64 (sumTo (neonTerm A B) ((n + 3) / 4))) ∧
    arm.calculate_diff_neon (Ptr.ofList A) (Ptr.ofList B) (n : Int)
      = some (wrap64 (sumTo (neonTerm A B) ((n + 3) / 4))) ∧
    ∀ A' B' : List Int,
      (∀ k, 4 * k < n → 8 * k + 7 < A'.length) → (∀ k, 4 * k < n → 8 * k + 7 < B'.length) →
      (∀ k, 4 * k < n → ∀ j, j < 4 →
        elem A' (8 * k + j) = elem A (8 * k + j) ∧
        elem B' (8 * k + j) = elem B (8 * k + j)) →
      arm64.calculate_diff_neon (Ptr.ofList A') (Ptr.ofList B') (n : Int)
        = arm64.calculate_diff_neon (Ptr.ofList A) (Ptr.ofList B) (n : Int) ∧
      arm.calculate_diff_neon (Ptr.ofList A') (Ptr.ofList B') (n : Int)
        = arm.calculate_diff_neon (Ptr.ofList A) (Ptr.ofList B) (n : Int) := by
  have hc := neon_closed A B n hA hB
  refine ⟨hc, by rw [neon_kernel_eq, hc], fun A' B' hA' hB' he => ?_⟩
  have hc' := neon_closed A' B' n hA' hB'
  have hsum : sumTo (neonTerm A' B') ((n + 3) / 4) = sumTo (neonTerm A B) ((n + 3) / 4) := by
    apply sumTo_congr
    intro k hk
    have h0 := he k (by omega) 0 (by omega)
    have h1 := he k (by omega) 1 (by omega)
    have h2 := he k (by omega) 2 (by omega)
    have h3 := he k (by omega) 3 (by omega)
    rw [Nat.add_zero] at h0
    unfold neonTerm delta32
    rw [h0.1, h0.2, h1.1, h1.2, h2.1, h2.2, h3.1, h3.2]
  refine ⟨by rw [hc, hc', hsum], by rw [neon_kernel_eq, neon_kernel_eq, hc, hc', hsum]⟩

/-- C18 (witness): `n = 4`, `A = [1,2,3,4,9,9,9,9]`, `B` all zero: both realizations return
the closed form, `1 + 4 + 9 + 16 = 30`. -/
theorem calculate_diff_neon_closed_form_witness :
    arm64.calculate_diff_neon (Ptr.ofList [1, 2, 3, 4, 9, 9, 9, 9])
        (Ptr.ofList [0, 0, 0, 0, 0, 0, 0, 0]) ((4 : Nat) : Int)
      = some (wrap64 (sumTo (neonTerm [1, 2, 3, 4, 9, 9, 9, 9] [0, 0, 0, 0, 0, 0, 0, 0])
          ((4 + 3) / 4))) ∧
    wrap64 (sumTo (neonTerm [1, 2, 3, 4, 9, 9, 9, 9] [0, 0, 0, 0, 0, 0, 0, 0]) ((4 + 3) / 4))
      = 30 :=
  ⟨(calculate_diff_neon_closed_form [1, 2, 3, 4, 9, 9, 9, 9] [0, 0, 0, 0, 0, 0, 0, 0] 4
      (by intro k hk; simp only [List.length_cons, List.length_nil]; omega)
      (by intro k hk; simp only [List.length_cons, List.length_nil]; omega)).1,
   by decide⟩

end Glyph
